import Mathlib

/-!
Verification of the CLISend server core: the length-prefixed wire codec
(`protocol.py`), the filesystem sandbox and worker operations
(`workers/reader.py`, `workers/writer.py`), the worker request loops, and the
per-connection command handling of `server.py`.

The Python code is shallowly embedded:
* paths and messages are Lean `String`s (lists of characters);
* the POSIX path functions used by the code (`lstrip`, `os.path.join`,
  `os.path.normpath`, `os.path.dirname`, `os.path.basename`) are translated
  from their CPython definitions;
* the filesystem is an explicit finite structure (`FS`): a map from the
  segment decomposition of a canonical absolute path to file contents, plus a
  set of directory paths.  The model is symlink-free, so `os.path.realpath`
  of an absolute path coincides with `os.path.normpath`;
* fallible code (an exception escaping a helper) is `Except`;
* byte strings are `List Nat`.
-/

namespace CLISend

/-- `s.lstrip("/")`: drop the leading `/` characters. -/
def lstripSlashes (s : String) : String :=
  ⟨s.data.dropWhile (· = '/')⟩

/-- `str.split(sep)` on character lists, CPython semantics:
`"".split("/") = [""]`, `"/a".split("/") = ["", "a"]`. -/
def pySplitChar (sep : Char) : List Char → List (List Char)
  | [] => [[]]
  | c :: cs =>
    let r := pySplitChar sep cs
    if c = sep then [] :: r
    else
      match r with
      | [] => [[c]]
      | h :: t => (c :: h) :: t

/-- `normpath`'s count of the POSIX-special initial slashes (0, 1 or 2). -/
def initSlashes (path : List Char) : Nat :=
  if path.take 1 = ['/'] then
    (if path.take 2 = ['/', '/'] ∧ path.take 3 ≠ ['/', '/', '/'] then 2 else 1)
  else 0

/-- `normpath`'s component loop: skip empty and `.` components, let `..`
pop the previous component unless the path is relative and exhausted. -/
def normComps (isl : Nat) (comps : List (List Char)) : List (List Char) :=
  comps.foldl (fun acc comp =>
      if comp = [] ∨ comp = ['.'] then acc
      else if comp ≠ ['.', '.'] ∨ (isl = 0 ∧ acc = [])
             ∨ (acc ≠ [] ∧ acc.getLast? = some ['.', '.']) then acc ++ [comp]
      else acc.dropLast) []

/-- `posixpath.normpath` on character lists, translated from CPython:
collapse `.` and `..` segments and repeated separators, preserving the
special one-or-two initial slashes. -/
def pyNormpathData (path : List Char) : List Char :=
  if path = [] then ['.']
  else
    let isl := initSlashes path
    let res :=
      List.replicate isl '/' ++ List.intercalate ['/'] (normComps isl (pySplitChar '/' path))
    if res = [] then ['.'] else res

/-- `os.path.normpath` on strings. -/
def pyNormpath (s : String) : String :=
  ⟨pyNormpathData s.data⟩

/-- `posixpath.join(a, b)` for the two-argument case, from CPython. -/
def pyJoinData (a b : List Char) : List Char :=
  if b.take 1 = ['/'] then b
  else if a = [] ∨ a.getLast? = some '/' then a ++ b
  else a ++ '/' :: b

/-- `os.path.join(a, b)` on strings. -/
def pyJoin (a b : String) : String :=
  ⟨pyJoinData a.data b.data⟩

/-- `a.startswith(b)` on strings. -/
def pyStartswith (a b : String) : Bool :=
  b.data.isPrefixOf a.data

/-- `posixpath.split(p)` on character lists, from CPython: split after the
last separator, then strip trailing separators off the head unless the head
is all separators. -/
def pySplitPathData (l : List Char) : List Char × List Char :=
  let i : Nat :=
    match l.reverse.findIdx? (· = '/') with
    | some j => l.length - j
    | none => 0
  let head := l.take i
  let tail := l.drop i
  let head' :=
    if head ≠ [] ∧ head.any (· ≠ '/') then (head.reverse.dropWhile (· = '/')).reverse
    else head
  (head', tail)

/-- `os.path.dirname` on strings. -/
def pyDirname (s : String) : String :=
  ⟨(pySplitPathData s.data).1⟩

/-- `os.path.basename` on strings. -/
def pyBasename (s : String) : String :=
  ⟨(pySplitPathData s.data).2⟩

/-- `os.path.realpath` in the symlink-free filesystem model: canonicalizing
an absolute path resolves no links, so it is exactly `os.path.normpath`. -/
def osRealpath (p : String) : String :=
  pyNormpath p

/-- The target path each worker operation computes from the shared root and
the client-supplied relative path:
`os.path.normpath(os.path.join(shared_folder, rel_path.lstrip("/")))`. -/
def sandboxTarget (sharedFolder relPath : String) : String :=
  pyNormpath (pyJoin sharedFolder (lstripSlashes relPath))

/-- The traversal check each worker operation performs on the target:
`os.path.realpath(target).startswith(os.path.realpath(shared_folder))`. -/
def sandboxOk (sharedFolder relPath : String) : Bool :=
  pyStartswith (osRealpath (sandboxTarget sharedFolder relPath)) (osRealpath sharedFolder)

/-- Stated from the spec's words, for comparison with the code's check: a
canonical path is inside the sandbox iff it equals the canonical root or is a
descendant of it (extends it across a `/` separator). -/
def isDescendantOrSelf (root p : String) : Bool :=
  p = root || pyStartswith p (root ++ "/")

/-- Decimal digits, fuelled so the recursion is structural: with fuel at
least `n + 1` this is the digit string of `n`. -/
def natToCharsAux : Nat → Nat → List Char
  | 0, _ => []
  | fuel + 1, n =>
    if n < 10 then [Char.ofNat (48 + n)]
    else natToCharsAux fuel (n / 10) ++ [Char.ofNat (48 + n % 10)]

/-- Decimal digits of a natural number, as `str` prints a non-negative int. -/
def natToChars (n : Nat) : List Char :=
  natToCharsAux (n + 1) n

/-- `str(n)` for a non-negative int, used by the workers' f-strings. -/
def natStr (n : Nat) : String :=
  ⟨natToChars n⟩

/-- The nonempty `/`-separated segments of a path string.  The filesystem
model is keyed by this decomposition of canonical absolute paths. -/
def pathSegs (s : String) : List String :=
  ((pySplitChar '/' s.data).filter (· ≠ [])).map (fun l => (⟨l⟩ : String))

/-- The filesystem: contents of regular files keyed by path segments, plus
the set of directories (the absolute root `[]` is implicitly always a
directory).  Symlink-free; permissions are not modelled. -/
structure FS where
  files : List (List String × List Nat)
  dirs : List (List String)
deriving DecidableEq

/-- Contents of the regular file at `p`, if one exists. -/
def lookupFileFS (fs : FS) (p : List String) : Option (List Nat) :=
  fs.files.lookup p

/-- `os.path.isfile` on the model. -/
def isfileFS (fs : FS) (p : List String) : Bool :=
  (lookupFileFS fs p).isSome

/-- `os.path.isdir` on the model; the absolute root always exists. -/
def isdirFS (fs : FS) (p : List String) : Bool :=
  p = [] || fs.dirs.contains p

/-- `os.path.exists` on the model. -/
def pexistsFS (fs : FS) (p : List String) : Bool :=
  isfileFS fs p || isdirFS fs p

/-- `open(p, "wb").write(data)`: create or fully replace the file at `p`. -/
def writeFileFS (fs : FS) (p : List String) (data : List Nat) : FS :=
  {fs with files := (p, data) :: fs.files.filter (fun kv => !(kv.1 == p))}

/-- `os.remove p`. -/
def removeFileFS (fs : FS) (p : List String) : FS :=
  {fs with files := fs.files.filter (fun kv => !(kv.1 == p))}

/-- `shutil.rmtree p`: remove `p` and everything below it. -/
def rmtreeFS (fs : FS) (p : List String) : FS :=
  {files := fs.files.filter (fun kv => !(p.isPrefixOf kv.1)),
   dirs := fs.dirs.filter (fun d => !(p.isPrefixOf d))}

/-- `os.mkdir name`: fails if something already exists at `name` or the
parent is not a directory. -/
def mkdirFS (fs : FS) (name : String) : FS × Bool :=
  let p := pathSegs name
  if pexistsFS fs p then (fs, false)
  else if isdirFS fs p.dropLast then ({fs with dirs := p :: fs.dirs}, true)
  else (fs, false)

/-- The tail of one `makedirs` iteration: propagate a failure of the
recursive parent creation, otherwise `mkdir(name)`, tolerating an existing
directory (`exist_ok=True`: the `FileExistsError` is suppressed iff the
target is a directory). -/
def makedirsFinish (r1 : FS × Bool) (name : String) : FS × Bool :=
  if r1.2 = false then (r1.1, false)
  else
    let m := mkdirFS r1.1 name
    if m.2 = true then m
    else if isdirFS m.1 (pathSegs name) then (m.1, true) else (m.1, false)

/-- `os.makedirs(name, exist_ok=True)`, translated from CPython: split off
the last component, recursively create the parent when it is missing, then
`mkdir`, tolerating an existing directory.  Recursion is fuelled; the fuel
`name.length + 1` used by `makedirsFS` always suffices since each recursive
call shortens the path. -/
def makedirsAux : Nat → FS → String → FS × Bool
  | 0, fs, _ => (fs, false)
  | fuel + 1, fs, name =>
    let hd0 := pyDirname name
    let tl0 := pyBasename name
    let ht := if tl0 = "" then (pyDirname hd0, pyBasename hd0) else (hd0, tl0)
    makedirsFinish
      (if ht.1 ≠ "" ∧ ht.2 ≠ "" ∧ pexistsFS fs (pathSegs ht.1) = false then
        makedirsAux fuel fs ht.1
      else (fs, true)) name

/-- `os.makedirs(name, exist_ok=True)` with adequate fuel. -/
def makedirsFS (fs : FS) (name : String) : FS × Bool :=
  makedirsAux (name.length + 1) fs name

/-- One `{name, is_dir, size}` element of a `LIST` response. -/
structure Entry where
  name : String
  is_dir : Bool
  size : Nat
deriving DecidableEq

/-- A worker/server response record; absent dict keys are `none` (`""` for
`message`, which every consumer reads with `.get("message", "")`). -/
structure Response where
  status : String
  message : String := ""
  entries : Option (List Entry) := none
  data : Option (List Nat) := none
  size : Option Nat := none
  path : Option String := none
  id : Option String := none
  action : Option String := none
deriving DecidableEq

/-- Names of the immediate children of directory `d`: `os.listdir d`.
Every child recorded in the model (a file's key or a directory) whose parent
is `d` appears exactly once. -/
def childNamesFS (fs : FS) (d : List String) : List String :=
  ((fs.files.map (·.1) ++ fs.dirs).filterMap (fun p =>
    match p.getLast? with
    | some n => if p.dropLast = d then some n else none
    | none => none)).dedup

/-- Insert into a lexicographically sorted list of names. -/
def insertSorted (a : String) : List String → List String
  | [] => [a]
  | b :: t => if a ≤ b then a :: b :: t else b :: insertSorted a t

/-- Insertion sort on names, modelling Python's `sorted` (ascending,
lexicographic by code point). -/
def sortNames : List String → List String
  | [] => []
  | a :: t => insertSorted a (sortNames t)

/-- `sorted(os.listdir d)`: lexicographic by name. -/
def sortedChildNames (fs : FS) (d : List String) : List String :=
  sortNames (childNamesFS fs d)

/-- `_list_files`'s pre-normalization: `/`, the empty path and `.` all
denote the shared root. -/
def listRel0 (rel_path : String) : String :=
  if rel_path = "/" ∨ rel_path = "" ∨ rel_path = "." then "" else rel_path

/-- `workers/reader.py` `_list_files`. -/
def list_files (shared_folder rel_path : String) (fs : FS) : Response :=
  let rel := lstripSlashes (listRel0 rel_path)
  let target := pyNormpath (pyJoin shared_folder rel)
  if !pyStartswith (osRealpath target) (osRealpath shared_folder) then
    {status := "error", message := "Ruta no permitida"}
  else if !isdirFS fs (pathSegs target) then
    {status := "error", message := "Directorio no encontrado: " ++ (if rel = "" then "/" else rel)}
  else
    let entries := (sortedChildNames fs (pathSegs target)).map (fun name =>
      let full := pathSegs target ++ [name]
      {name := name, is_dir := isdirFS fs full,
       size := if isfileFS fs full then ((lookupFileFS fs full).getD []).length else 0})
    {status := "ok", entries := some entries}

/-- `workers/reader.py` `_read_file`.  The `PermissionError` branch has no
counterpart because the model has no permissions. -/
def read_file (shared_folder rel_path : String) (fs : FS) : Response :=
  let rel := lstripSlashes rel_path
  let target := pyNormpath (pyJoin shared_folder rel)
  if !pyStartswith (osRealpath target) (osRealpath shared_folder) then
    {status := "error", message := "Ruta no permitida"}
  else
    match lookupFileFS fs (pathSegs target) with
    | none => {status := "error", message := "Archivo no encontrado: " ++ rel}
    | some data =>
      {status := "ok", size := some data.length, data := some data, path := some rel}

/-- `workers/writer.py` `_save_file`.  `os.makedirs` sits outside the `try`
block, so its failure escapes the function: that is the `Except.error`
outcome, caught only by the worker loop.  A directory at the target makes
`open(target, "wb")` raise `IsADirectoryError`, which the function's own
`except` turns into an error response. -/
def save_file (shared_folder rel_path : String) (data : List Nat) (fs : FS) :
    Except (String × FS) (Response × FS) :=
  let rel := lstripSlashes rel_path
  let target := pyNormpath (pyJoin shared_folder rel)
  if !pyStartswith (osRealpath target) (osRealpath shared_folder) then
    .ok ({status := "error", message := "Ruta no permitida"}, fs)
  else
    let target_dir := pyDirname target
    let md := if target_dir ≠ "" then makedirsFS fs target_dir else (fs, true)
    if md.2 = false then .error ("makedirs: " ++ target_dir, md.1)
    else if isdirFS md.1 (pathSegs target) then
      .ok ({status := "error", message := "[Errno 21] Is a directory: " ++ target}, md.1)
    else
      .ok ({status := "ok",
            message := "Archivo guardado: " ++ rel ++ " (" ++ natStr data.length ++ " bytes)"},
           writeFileFS md.1 (pathSegs target) data)

/-- `workers/writer.py` `_delete_file`: a directory target is removed
recursively, a file target singly. -/
def delete_file (shared_folder rel_path : String) (fs : FS) : Response × FS :=
  let rel := lstripSlashes rel_path
  let target := pyNormpath (pyJoin shared_folder rel)
  if !pyStartswith (osRealpath target) (osRealpath shared_folder) then
    ({status := "error", message := "Ruta no permitida"}, fs)
  else if !pexistsFS fs (pathSegs target) then
    ({status := "error", message := "Archivo no encontrado: " ++ rel}, fs)
  else if isdirFS fs (pathSegs target) then
    ({status := "ok", message := "Directorio eliminado: " ++ rel}, rmtreeFS fs (pathSegs target))
  else
    ({status := "ok", message := "Archivo eliminado: " ++ rel}, removeFileFS fs (pathSegs target))

/-- `workers/writer.py` `_cut_file`: read the whole file, remove it, return
the content. -/
def cut_file (shared_folder rel_path : String) (fs : FS) : Response × FS :=
  let rel := lstripSlashes rel_path
  let target := pyNormpath (pyJoin shared_folder rel)
  if !pyStartswith (osRealpath target) (osRealpath shared_folder) then
    ({status := "error", message := "Ruta no permitida"}, fs)
  else
    match lookupFileFS fs (pathSegs target) with
    | none => ({status := "error", message := "Archivo no encontrado: " ++ rel}, fs)
    | some data =>
      ({status := "ok",
        message := "Archivo cortado: " ++ rel ++ " (" ++ natStr data.length ++ " bytes)",
        data := some data, size := some data.length, path := some rel},
       removeFileFS fs (pathSegs target))

/-- `str.upper()` restricted to ASCII (the protocol's action verbs are
ASCII). -/
def pyCharUpper (c : Char) : Char :=
  if 97 ≤ c.toNat ∧ c.toNat ≤ 122 then Char.ofNat (c.toNat - 32) else c

/-- `s.upper()` on strings. -/
def pyUpper (s : String) : String :=
  ⟨s.data.map pyCharUpper⟩

/-- An operation request crossing the dispatcher/worker queue; absent dict
keys are `none`. -/
structure Request where
  id : Option String := none
  action : Option String := none
  path : Option String := none
  data : Option (List Nat) := none
deriving DecidableEq

/-- The body of the reader worker's `try` block (`workers/reader.py`,
dispatch on the uppercased action).  No modelled reader operation raises, so
the result is always `Except.ok`; the `Except` layer is where an escaping
exception of either worker would travel. -/
def readerOps (shared_folder : String) (req : Request) (fs : FS) :
    Except (String × FS) (Response × FS) :=
  let action := pyUpper (req.action.getD "")
  let path := req.path.getD "/"
  if action = "LIST" then .ok (list_files shared_folder path fs, fs)
  else if action = "DOWNLOAD" then .ok (read_file shared_folder path fs, fs)
  else .ok ({status := "error", message := "Acción desconocida: " ++ action}, fs)

/-- The body of the writer worker's `try` block (`workers/writer.py`).  Note
the writer's default path is `""` where the reader's is `"/"`.  An exception
escaping `_save_file` (its unguarded `os.makedirs`) is the `.error` case and
carries the filesystem as already mutated. -/
def writerOps (shared_folder : String) (req : Request) (fs : FS) :
    Except (String × FS) (Response × FS) :=
  let action := pyUpper (req.action.getD "")
  let path := req.path.getD ""
  if action = "UPLOAD" then
    let data := req.data.getD []
    save_file shared_folder path data fs
  else if action = "DELETE" then .ok (delete_file shared_folder path fs)
  else if action = "CUT" then .ok (cut_file shared_folder path fs)
  else .ok ({status := "error", message := "Acción desconocida: " ++ action}, fs)

/-- One iteration of a worker loop on a dequeued request: run the dispatch
under the per-request `try`, converting an escaped exception into an
`"error"` response, then stamp the request's correlation id and the
uppercased action onto the result. -/
def workerStep (ops : Request → FS → Except (String × FS) (Response × FS))
    (fs : FS) (req : Request) : Response × FS :=
  let action := pyUpper (req.action.getD "")
  let rf : Response × FS :=
    match ops req fs with
    | .ok (r, fs') => (r, fs')
    | .error (e, fsE) => ({status := "error", message := "Error interno: " ++ e}, fsE)
  ({rf.1 with id := req.id, action := some action}, rf.2)

/-- A worker loop over its inbound queue: process requests in order, reply
to each, stop only at the `None` sentinel. -/
def workerRun (ops : Request → FS → Except (String × FS) (Response × FS)) :
    FS → List (Option Request) → List Response
  | _, [] => []
  | _, none :: _ => []
  | fs, some req :: rest =>
    let (r, fs') := workerStep ops fs req
    r :: workerRun ops fs' rest

/-- `reader_worker`'s loop (the queue is modelled as the list of dequeued
values; `shared_folder` is assumed already absolute, as `os.path.abspath`
makes it on startup). -/
def reader_worker (shared_folder : String) (fs : FS) (reqs : List (Option Request)) :
    List Response :=
  workerRun (readerOps shared_folder) fs reqs

/-- `writer_worker`'s loop, strictly sequential over its queue. -/
def writer_worker (shared_folder : String) (fs : FS) (reqs : List (Option Request)) :
    List Response :=
  workerRun (writerOps shared_folder) fs reqs

/-- A decoded client JSON message, as `handle_client` reads it: the fields
the server consults, each absent (`none`) when the key is missing.  `extra`
records whether the dict has any further keys — only its truthiness
matters. -/
structure Cmd where
  name : Option String := none
  action : Option String := none
  path : Option String := none
  size : Option Nat := none
  extra : Bool := false
deriving DecidableEq

/-- Python truthiness of the decoded dict (`not msg` in the handshake). -/
def cmdTruthy (c : Cmd) : Bool :=
  c.name.isSome || c.action.isSome || c.path.isSome || c.size.isSome || c.extra

/-- Outcome of the handshake in `handle_client`: either the connection is
closed with no reply, or the session proceeds and the welcome reply is
sent. -/
inductive HsOut where
  | closed
  | proceed (clientName : String) (reply : Response)
deriving DecidableEq

/-- `handle_client` lines 177–197: `None`, an empty dict or a dict without a
`name` key closes the connection; otherwise the server records the name and
replies `{status := "ok"}`. -/
def handshake (m : Option Cmd) : HsOut :=
  match m with
  | none => .closed
  | some msg =>
    if !cmdTruthy msg || msg.name.isNone then .closed
    else
      .proceed (msg.name.getD "")
        {status := "ok",
         message := "Bienvenido " ++ msg.name.getD "" ++ "! Conectado al servidor Clisend."}

/-- What the server writes back on the socket: a framed control record or a
run of raw unframed bytes. -/
inductive SrvMsg where
  | ctrl (r : Response)
  | raw (b : List Nat)
deriving DecidableEq

/-- Whether the command loop keeps reading (`cont`) or tears the session
down (mid-upload disconnect raises `IncompleteReadError`). -/
inductive LoopCtl where
  | cont
  | disconnect
deriving DecidableEq

/-- One iteration of `handle_client`'s command loop on a decoded command
`msg`, with `stream` the raw bytes following the frame (consumed only by
UPLOAD).  The dispatcher round-trip through `send_to_worker` — fresh
correlation id, queue hand-off, future resolved by the poll loop — is
modelled as the synchronous worker step it amounts to.  `result.get("message",
"Error desc")` is modelled with `""` standing for an absent message key. -/
def serverStep (shared_folder : String) (fs : FS) (msg : Cmd) (stream : List Nat) :
    List SrvMsg × FS × LoopCtl :=
  let action := pyUpper (msg.action.getD "")
  let path := msg.path.getD "/"
  if action = "LIST" then
    let (r, fs') := workerStep (readerOps shared_folder) fs {action := some "LIST", path := some path}
    ([.ctrl {status := r.status, action := some "LIST", entries := some (r.entries.getD []),
             message := r.message}], fs', .cont)
  else if action = "DOWNLOAD" then
    let (r, fs') := workerStep (readerOps shared_folder) fs {action := some "DOWNLOAD", path := some path}
    if r.status = "ok" then
      ([.ctrl {status := "ok", action := some "DOWNLOAD", path := r.path, size := r.size},
        .raw (r.data.getD [])], fs', .cont)
    else
      ([.ctrl {status := "error", action := some "DOWNLOAD",
               message := if r.message = "" then "Error desc" else r.message}], fs', .cont)
  else if action = "UPLOAD" then
    let file_size := msg.size.getD 0
    let ready : SrvMsg := .ctrl {status := "ready", action := some "UPLOAD"}
    if stream.length < file_size then
      ([ready], fs, .disconnect)
    else
      let file_data := stream.take file_size
      let (r, fs') := workerStep (writerOps shared_folder) fs
        {action := some "UPLOAD", path := some path, data := some file_data}
      ([ready, .ctrl {status := r.status, action := some "UPLOAD", message := r.message}], fs', .cont)
  else if action = "DELETE" then
    let (r, fs') := workerStep (writerOps shared_folder) fs {action := some "DELETE", path := some path}
    ([.ctrl {status := r.status, action := some "DELETE", message := r.message}], fs', .cont)
  else if action = "CUT" then
    let (r, fs') := workerStep (writerOps shared_folder) fs {action := some "CUT", path := some path}
    if r.status = "ok" then
      ([.ctrl {status := "ok", action := some "CUT", path := r.path, size := r.size},
        .raw (r.data.getD [])], fs', .cont)
    else
      ([.ctrl {status := "error", action := some "CUT",
               message := if r.message = "" then "Error desc" else r.message}], fs', .cont)
  else
    ([.ctrl {status := "error", message := "Desconocido: " ++ action}], fs, .cont)

/-- `struct.pack("!I", n)`: the 4 big-endian bytes of `n < 2^32`. -/
def pack32BE (n : Nat) : List Nat :=
  [n / 16777216 % 256, n / 65536 % 256, n / 256 % 256, n % 256]

/-- `struct.unpack("!I", b)[0]` on a 4-byte list. -/
def unpack32BE : List Nat → Nat
  | [b0, b1, b2, b3] => ((b0 * 256 + b1) * 256 + b2) * 256 + b3
  | _ => 0

/-- `async_recv_exact(reader, n)` over a byte stream the peer has closed
after `stream`: `readexactly` returns the `n` bytes when available and
raises `IncompleteReadError` otherwise — which the function converts to
`None`.  (The sync `recv_exact` has the same observable behaviour: it
returns `None` whenever the socket closes before `n` bytes.) -/
def async_recv_exact (stream : List Nat) (n : Nat) : Option (List Nat × List Nat) :=
  if n ≤ stream.length then some (stream.take n, stream.drop n) else none

/-- The framing layer of `async_recv_message` (and of the sync
`recv_message`): read the 4-byte header, read exactly that many payload
bytes, and return the undecoded payload (`json.loads` is applied to it
afterwards).  Every failure path — peer closed before the header, closed
mid-header, closed mid-payload, or a zero-length payload (`if not
raw_payload`) — returns `none`. -/
def async_recv_message_frame (stream : List Nat) : Option (List Nat × List Nat) :=
  match async_recv_exact stream 4 with
  | none => none
  | some (raw_header, rest) =>
    let msg_len := unpack32BE raw_header
    match async_recv_exact rest msg_len with
    | none => none
    | some (raw_payload, rest') =>
      if raw_payload = [] then none else some (raw_payload, rest')

/-! ### The JSON payload codec

`send_message` serializes the record with `json.dumps` (default separators,
`ensure_ascii=True`) and `recv_message` deserializes with `json.loads`.
Records are the mutual inductive `JVal`/`JArr`/`JObj`.  `dumpJ` is the
serializer; `parseJ` is *modelled from the spec*: the stdlib `json.loads`
deserializer (not part of this repository) restricted to the canonical
grammar `json.dumps` emits. -/

mutual
inductive JVal where
  | jstr (s : String)
  | jnum (n : Nat)
  | jbool (b : Bool)
  | jarr (xs : JArr)
  | jobj (kvs : JObj)
deriving DecidableEq
inductive JArr where
  | anil
  | acons (hd : JVal) (tl : JArr)
deriving DecidableEq
inductive JObj where
  | onil
  | ocons (k : String) (v : JVal) (tl : JObj)
deriving DecidableEq
end

/-- The `{` character (written by code point). -/
def obraceChar : Char := Char.ofNat 123

/-- The `}` character (written by code point). -/
def cbraceChar : Char := Char.ofNat 125

/-- Lower-case hex digit. -/
def hexDigitChar (n : Nat) : Char :=
  if n < 10 then Char.ofNat (48 + n) else Char.ofNat (87 + n)

/-- Four hex digits of `n < 0x10000`. -/
def hex4 (n : Nat) : List Char :=
  [hexDigitChar (n / 4096 % 16), hexDigitChar (n / 256 % 16),
   hexDigitChar (n / 16 % 16), hexDigitChar (n % 16)]

/-- `json.dumps` string escaping with `ensure_ascii=True`, per character:
named escapes, printable ASCII verbatim, `\uXXXX` (with surrogate pairs)
for everything else. -/
def escapeChar (c : Char) : List Char :=
  if c = '\\' then ['\\', '\\']
  else if c = '"' then ['\\', '"']
  else if c.toNat = 8 then ['\\', 'b']
  else if c.toNat = 9 then ['\\', 't']
  else if c.toNat = 10 then ['\\', 'n']
  else if c.toNat = 12 then ['\\', 'f']
  else if c.toNat = 13 then ['\\', 'r']
  else if 32 ≤ c.toNat ∧ c.toNat ≤ 126 then [c]
  else if c.toNat < 65536 then '\\' :: 'u' :: hex4 c.toNat
  else '\\' :: 'u' :: hex4 (55296 + (c.toNat - 65536) / 1024) ++
       '\\' :: 'u' :: hex4 (56320 + (c.toNat - 65536) % 1024)

/-- A JSON string literal: quote, escaped characters, quote. -/
def dumpStr (s : String) : List Char :=
  '"' :: (s.data.map escapeChar).flatten ++ ['"']

mutual
/-- `json.dumps` with the default separators `", "` and `": "`. -/
def dumpJ : JVal → List Char
  | .jstr s => dumpStr s
  | .jnum n => natToChars n
  | .jbool b => if b then ['t', 'r', 'u', 'e'] else ['f', 'a', 'l', 's', 'e']
  | .jarr xs => '[' :: dumpArr xs ++ [']']
  | .jobj kvs => obraceChar :: dumpObj kvs ++ [cbraceChar]
/-- Array elements joined by `", "`. -/
def dumpArr : JArr → List Char
  | .anil => []
  | .acons v .anil => dumpJ v
  | .acons v (.acons w tl) => dumpJ v ++ ',' :: ' ' :: dumpArr (.acons w tl)
/-- Object members `"k": v` joined by `", "`. -/
def dumpObj : JObj → List Char
  | .onil => []
  | .ocons k v .onil => dumpStr k ++ ':' :: ' ' :: dumpJ v
  | .ocons k v (.ocons k2 w tl) =>
    dumpStr k ++ ':' :: ' ' :: dumpJ v ++ ',' :: ' ' :: dumpObj (.ocons k2 w tl)
end

/-- `str.isdigit` on an ASCII decimal digit. -/
def pyIsDigit (c : Char) : Bool :=
  48 ≤ c.toNat && c.toNat ≤ 57

/-- Consume a run of decimal digits, accumulating their value. -/
def parseNatAux : List Char → Nat → Nat × List Char
  | [], acc => (acc, [])
  | c :: cs, acc =>
    if pyIsDigit c then parseNatAux cs (acc * 10 + (c.toNat - 48)) else (acc, c :: cs)

/-- Unescape one named backslash escape: the `BACKSLASH` lookup table of
`json.loads` (`\uXXXX` is handled by a separate branch of the scanner,
as in `py_scanstring`). -/
def escCharInv (e : Char) : Option Char :=
  if e = '"' then some '"'
  else if e = '\\' then some '\\'
  else if e = '/' then some '/'
  else if e = 'b' then some (Char.ofNat 8)
  else if e = 't' then some (Char.ofNat 9)
  else if e = 'n' then some (Char.ofNat 10)
  else if e = 'f' then some (Char.ofNat 12)
  else if e = 'r' then some (Char.ofNat 13)
  else none

/-- The value of one hex digit (`json.loads` accepts both cases). -/
def hexVal (c : Char) : Option Nat :=
  if 48 ≤ c.toNat ∧ c.toNat ≤ 57 then some (c.toNat - 48)
  else if 97 ≤ c.toNat ∧ c.toNat ≤ 102 then some (c.toNat - 87)
  else if 65 ≤ c.toNat ∧ c.toNat ≤ 70 then some (c.toNat - 55)
  else none

/-- The code-unit scanner of `py_scanstring` on the emitted grammar:
literal characters, the named escapes, and `\uXXXX` escapes, each yielding
its code unit (an astral literal yields its code point). -/
def parseUnits : List Char → Option (List Nat × List Char)
  | [] => none
  | c :: cs =>
    if c = '"' then some ([], cs)
    else if c = '\\' then
      match cs with
      | [] => none
      | e :: rest =>
        if e = 'u' then
          match rest with
          | h1 :: h2 :: h3 :: h4 :: rest2 =>
            match hexVal h1, hexVal h2, hexVal h3, hexVal h4 with
            | some a1, some a2, some a3, some a4 =>
              (parseUnits rest2).map (fun p =>
                ((((a1 * 16 + a2) * 16 + a3) * 16 + a4) :: p.1, p.2))
            | _, _, _, _ => none
          | _ => none
        else
          match escCharInv e with
          | some c2 => (parseUnits rest).map (fun p => (c2.toNat :: p.1, p.2))
          | none => none
    else (parseUnits cs).map (fun p => (c.toNat :: p.1, p.2))

/-- Combine a high/low surrogate pair written by two consecutive `\uXXXX`
escapes into its astral code point, exactly as `py_scanstring` does.  On
input that went through `bytes.decode("utf-8")` a unit in the surrogate
range can only come from such an escape, so pairing after the scan is the
scanner's inline pairing. -/
def combineUnits : List Nat → Option (List Char)
  | [] => some []
  | u :: us =>
    if 55296 ≤ u ∧ u ≤ 56319 then
      match us with
      | [] => none
      | u2 :: us2 =>
        if 56320 ≤ u2 ∧ u2 ≤ 57343 then
          (combineUnits us2).map (fun l =>
            Char.ofNat (65536 + (u - 55296) * 1024 + (u2 - 56320)) :: l)
        else none
    else if 56320 ≤ u ∧ u ≤ 57343 then none
    else (combineUnits us).map (fun l => Char.ofNat u :: l)

/-- Parse a string literal body up to the closing quote, as `py_scanstring`
does on the emitted grammar: scan code units, pairing surrogates. -/
def parseStrChars (cs : List Char) : Option (List Char × List Char) :=
  match parseUnits cs with
  | none => none
  | some (us, rest) =>
    match combineUnits us with
    | none => none
    | some l => some (l, rest)

/-- The code units `json.dumps`'s escaper writes for one character. -/
def charUnits (c : Char) : List Nat :=
  if c.toNat < 65536 then [c.toNat]
  else [55296 + (c.toNat - 65536) / 1024, 56320 + (c.toNat - 65536) % 1024]

/-- The three mutually recursive parsers of the canonical grammar `dumpJ`
emits (`json.loads` modelled from the spec), as a triple indexed by fuel so
the recursion is a single structural descent on `Nat`: value parser, array
member parser, object member parser.  Any fuel of at least `jsizeJ v`
parses `dumpJ v`. -/
def parsers : Nat →
    ((List Char → Option (JVal × List Char)) ×
     (List Char → Option (JArr × List Char)) ×
     (List Char → Option (JObj × List Char)))
  | 0 => (fun _ => none, fun _ => none, fun _ => none)
  | fuel + 1 =>
    let pj := (parsers fuel).1
    let pa := (parsers fuel).2.1
    let po := (parsers fuel).2.2
    (fun input =>
      match input with
      | [] => none
      | c :: cs =>
        if c = '"' then (parseStrChars cs).map (fun p => (.jstr ⟨p.1⟩, p.2))
        else if c = 't' then
          match cs with
          | 'r' :: 'u' :: 'e' :: rest => some (.jbool true, rest)
          | _ => none
        else if c = 'f' then
          match cs with
          | 'a' :: 'l' :: 's' :: 'e' :: rest => some (.jbool false, rest)
          | _ => none
        else if c = '[' then
          match cs with
          | [] => none
          | c2 :: rest =>
            if c2 = ']' then some (.jarr .anil, rest)
            else (pa (c2 :: rest)).map (fun p => (.jarr p.1, p.2))
        else if c = obraceChar then
          match cs with
          | [] => none
          | c2 :: rest =>
            if c2 = cbraceChar then some (.jobj .onil, rest)
            else (po (c2 :: rest)).map (fun p => (.jobj p.1, p.2))
        else if pyIsDigit c then
          some (.jnum (parseNatAux (c :: cs) 0).1, (parseNatAux (c :: cs) 0).2)
        else none,
     fun cs =>
      match pj cs with
      | none => none
      | some (v, rest) =>
        match rest with
        | ']' :: rest2 => some (.acons v .anil, rest2)
        | ',' :: ' ' :: rest2 => (pa rest2).map (fun p => (.acons v p.1, p.2))
        | _ => none,
     fun cs =>
      match cs with
      | '"' :: cs2 =>
        match parseStrChars cs2 with
        | none => none
        | some (k, rest) =>
          match rest with
          | ':' :: ' ' :: rest2 =>
            match pj rest2 with
            | none => none
            | some (v, rest3) =>
              match rest3 with
              | [] => none
              | c3 :: rest4 =>
                if c3 = cbraceChar then some (.ocons ⟨k⟩ v .onil, rest4)
                else if c3 = ',' then
                  match rest4 with
                  | ' ' :: rest5 => (po rest5).map (fun p => (.ocons ⟨k⟩ v p.1, p.2))
                  | _ => none
                else none
          | _ => none
      | _ => none)

/-- The JSON value parser at a given fuel. -/
def parseJ (fuel : Nat) (input : List Char) : Option (JVal × List Char) :=
  (parsers fuel).1 input

/-- The array member parser (`elem (", " elem)* "]"`). -/
def parseArr (fuel : Nat) (cs : List Char) : Option (JArr × List Char) :=
  (parsers fuel).2.1 cs

/-- The object member parser (`"k": v (", " "k": v)* "\x7d"`). -/
def parseObj (fuel : Nat) (cs : List Char) : Option (JObj × List Char) :=
  (parsers fuel).2.2 cs

mutual
/-- Fuel adequate for `parseJ` on `dumpJ v`. -/
def jsizeJ : JVal → Nat
  | .jstr _ => 1
  | .jnum _ => 1
  | .jbool _ => 1
  | .jarr xs => jsizeA xs + 1
  | .jobj kvs => jsizeO kvs + 1
/-- Fuel adequate for `parseArr` on a nonempty array's members. -/
def jsizeA : JArr → Nat
  | .anil => 0
  | .acons v tl => jsizeJ v + jsizeA tl + 1
/-- Fuel adequate for `parseObj` on a nonempty object's members. -/
def jsizeO : JObj → Nat
  | .onil => 0
  | .ocons _ v tl => jsizeJ v + jsizeO tl + 1
end

/-- The non-digit-head guard a decimal literal needs from its right
context; every continuation `dumpJ` produces satisfies it. -/
def headNotDigit : List Char → Bool
  | [] => true
  | c :: _ => !pyIsDigit c

/-- `json.dumps(msg).encode("utf-8")`: `ensure_ascii=True` makes the dump
pure ASCII, where UTF-8 is the identity on code points. -/
def json_dumps (v : JVal) : List Nat :=
  (dumpJ v).map Char.toNat

/-- `json.loads(raw_payload.decode("utf-8"))`, modelled from the spec on
the emitted grammar; requires the payload to parse completely. -/
def json_loads (payload : List Nat) : Option JVal :=
  let cs := payload.map Char.ofNat
  match parseJ (cs.length + 1) cs with
  | some (v, []) => some v
  | _ => none

/-- `async_send_message` (and the sync `send_message`): serialize, prefix
with the 4-byte big-endian length (`struct.pack("!I", ...)` raises on
`≥ 2^32`, the `none` case), write both as one unit. -/
def async_send_message (v : JVal) : Option (List Nat) :=
  let payload := json_dumps v
  if payload.length < 4294967296 then some (pack32BE payload.length ++ payload) else none

/-- `async_recv_message` (and the sync `recv_message`): read a frame, then
decode the payload as JSON. -/
def async_recv_message (stream : List Nat) : Option (JVal × List Nat) :=
  match async_recv_message_frame stream with
  | none => none
  | some (payload, rest) =>
    match json_loads payload with
    | some v => some (v, rest)
    | none => none

/-! ### Shared concrete data for counterexamples and witnesses -/

/-- A small shared tree: root `/srv/share` holding one file `a.txt`. -/
def sampleFS : FS :=
  {files := [(["srv", "share", "a.txt"], [65])],
   dirs := [["srv"], ["srv", "share"]]}

/-! ### Claims -/

/-- Claim C1: sandbox resolution is claimed to accept only paths whose
canonical resolution equals the shared root or descends from it.  The code
instead compares by raw string prefix, so from root `/srv/share` the
traversal `../share-evil/secret.txt` canonicalizes to
`/srv/share-evil/secret.txt` — outside the root — yet passes the check; the
operation then runs outside the sandbox. -/
theorem C1_sandbox_prefix_escape :
    sandboxOk "/srv/share" "../share-evil/secret.txt" = true ∧
    sandboxTarget "/srv/share" "../share-evil/secret.txt" = "/srv/share-evil/secret.txt" ∧
    isDescendantOrSelf "/srv/share"
      (osRealpath (sandboxTarget "/srv/share" "../share-evil/secret.txt")) = false ∧
    (save_file "/srv/share" "../share-evil/secret.txt" [9] sampleFS).toOption.map
      (fun p => lookupFileFS p.2 ["srv", "share-evil", "secret.txt"]) = some (some [9]) := by
  refine ⟨rfl, rfl, rfl, rfl⟩

/-- Claim C2 counterexample: `DELETE` of the path `/` (the shared root) does
not return an error — the root is an existing directory, so the code takes
the `shutil.rmtree` branch, removes the whole shared tree and reports
success. -/
theorem C2_delete_root_counterexample :
    (delete_file "/srv/share" "/" sampleFS).1.status = "ok" ∧
    (delete_file "/srv/share" "/" sampleFS).1.message = "Directorio eliminado: " ∧
    isdirFS (delete_file "/srv/share" "/" sampleFS).2 (pathSegs "/srv/share") = false ∧
    (delete_file "/srv/share" "/" sampleFS).2.files = [] := by
  refine ⟨rfl, rfl, rfl, rfl⟩

/-- Claim C3 counterexample: a `LIST` command without a `path` field is not
answered with an error — the server substitutes the default `"/"` and
returns the root listing with status `ok`; an `UPLOAD` without a `size`
field is not answered with an error — the server substitutes `0`, replies
`ready` and then `ok`, writing an empty file. -/
theorem C3_missing_field_counterexample :
    (serverStep "/srv/share" sampleFS {action := some "LIST"} []).1 =
      [.ctrl {status := "ok", action := some "LIST",
              entries := some [{name := "a.txt", is_dir := false, size := 1}]}] ∧
    (serverStep "/srv/share" sampleFS {action := some "UPLOAD", path := some "f.txt"} []).1 =
      [.ctrl {status := "ready", action := some "UPLOAD"},
       .ctrl {status := "ok", action := some "UPLOAD",
              message := "Archivo guardado: f.txt (0 bytes)"}] := by
  refine ⟨rfl, rfl⟩

/-- Claim C4 counterexample: a handshake whose `name` is the empty string is
not rejected — the dict is truthy and has a `name` key, so the session
proceeds and the server replies `ok`. -/
theorem C4_empty_name_counterexample :
    handshake (some {name := some ""}) =
      .proceed "" {status := "ok", message := "Bienvenido ! Conectado al servidor Clisend."} := by
  rfl

/-- Claim C5 counterexample: a peer that closes after sending one of the
four length bytes produces exactly the same decoder outcome (`None`) as a
peer that closes before sending anything; the mid-frame close is not a
distinct framing failure. -/
theorem C5_mid_frame_close_counterexample :
    async_recv_message_frame [0] = async_recv_message_frame [] ∧
    async_recv_message_frame [] = none := by
  refine ⟨rfl, rfl⟩

/-! ### Helper lemmas -/

theorem toNat_charOfNat (n : Nat) (h : n < 55296) : (Char.ofNat n).toNat = n := by
  unfold Char.ofNat
  split
  · rfl
  · rename_i hv
    exact absurd (Or.inl h) hv

theorem pyCharUpper_idem (c : Char) : pyCharUpper (pyCharUpper c) = pyCharUpper c := by
  unfold pyCharUpper
  split
  · rename_i h
    have hv : (Char.ofNat (c.toNat - 32)).toNat = c.toNat - 32 :=
      toNat_charOfNat _ (by omega)
    rw [if_neg]
    rw [hv]
    omega
  · rfl

theorem pyUpper_idem (s : String) : pyUpper (pyUpper s) = pyUpper s := by
  unfold pyUpper
  refine congrArg String.mk ?_
  show (s.data.map pyCharUpper).map pyCharUpper = s.data.map pyCharUpper
  rw [List.map_map]
  exact List.map_congr_left (fun c _ => pyCharUpper_idem c)

theorem upper_getD (o : Option String) :
    (o.map pyUpper).getD "" = pyUpper (o.getD "") := by
  cases o <;> rfl

theorem workerRun_length (ops : Request → FS → Except (String × FS) (Response × FS))
    (fs : FS) (reqs : List (Option Request)) :
    (workerRun ops fs reqs).length = (reqs.takeWhile Option.isSome).length := by
  induction reqs generalizing fs with
  | nil => rfl
  | cons hd tl ih =>
    cases hd with
    | none => rfl
    | some r => simp [workerRun, List.takeWhile, ih]

theorem lookup_filter_ne (l : List (List String × List Nat)) (p : List String) :
    (l.filter fun kv => !(kv.1 == p)).lookup p = none := by
  induction l with
  | nil => rfl
  | cons kv t ih =>
    by_cases h : kv.1 = p
    · simp [List.filter, h, ih]
    · have hb : (kv.1 == p) = false := beq_false_of_ne h
      have hb2 : (p == kv.1) = false := beq_false_of_ne (Ne.symm h)
      simp [List.filter, hb, hb2, List.lookup, ih]

theorem lookupFileFS_removeFileFS (fs : FS) (p : List String) :
    lookupFileFS (removeFileFS fs p) p = none :=
  lookup_filter_ne fs.files p

theorem lookupFileFS_writeFileFS (fs : FS) (p : List String) (data : List Nat) :
    lookupFileFS (writeFileFS fs p data) p = some data := by
  simp [lookupFileFS, writeFileFS, List.lookup]

theorem mkdir_isdir (fs : FS) (name : String) (fs' : FS)
    (h : mkdirFS fs name = (fs', true)) : isdirFS fs' (pathSegs name) = true := by
  simp only [mkdirFS] at h
  split at h
  · exact absurd (congrArg Prod.snd h) (by simp)
  · split at h
    · cases h
      simp [isdirFS]
    · exact absurd (congrArg Prod.snd h) (by simp)

theorem makedirsFinish_isdir (r1 : FS × Bool) (name : String) (fs' : FS)
    (h : makedirsFinish r1 name = (fs', true)) : isdirFS fs' (pathSegs name) = true := by
  simp only [makedirsFinish] at h
  split at h
  · exact absurd (congrArg Prod.snd h) (by simp)
  · split at h
    · exact mkdir_isdir _ name fs' h
    · split at h
      · rename_i hdir
        cases h
        exact hdir
      · exact absurd (congrArg Prod.snd h) (by simp)

theorem makedirs_isdir (fs : FS) (name : String) (fs' : FS)
    (h : makedirsFS fs name = (fs', true)) : isdirFS fs' (pathSegs name) = true := by
  simp only [makedirsFS, makedirsAux] at h
  exact makedirsFinish_isdir _ name fs' h

theorem mem_insertSorted {a b : String} {l : List String} :
    a ∈ insertSorted b l ↔ a = b ∨ a ∈ l := by
  induction l with
  | nil => simp [insertSorted]
  | cons c t ih =>
    unfold insertSorted
    split
    · simp
    · simp only [List.mem_cons, ih]
      tauto

theorem mem_sortNames {a : String} {l : List String} :
    a ∈ sortNames l ↔ a ∈ l := by
  induction l with
  | nil => simp [sortNames]
  | cons b t ih =>
    simp [sortNames, mem_insertSorted, ih]

theorem getLast?_dropLast_eq {α : Type} (p : List α) (n : α) (d : List α)
    (hl : p.getLast? = some n) (hd : p.dropLast = d) : p = d ++ [n] := by
  subst hd
  induction p with
  | nil => cases hl
  | cons a t ih =>
    cases t with
    | nil =>
      cases hl
      rfl
    | cons b t' =>
      have hl' : (b :: t').getLast? = some n := by
        rw [← hl]
        rfl
      have := ih hl'
      calc a :: b :: t' = a :: ((b :: t').dropLast ++ [n]) := by rw [← this]
        _ = (a :: b :: t').dropLast ++ [n] := by rfl

theorem mem_childNamesFS {fs : FS} {d : List String} {n : String}
    (h : n ∈ childNamesFS fs d) :
    ∃ p, (p ∈ fs.files.map Prod.fst ∨ p ∈ fs.dirs) ∧ p = d ++ [n] := by
  unfold childNamesFS at h
  rw [List.mem_dedup, List.mem_filterMap] at h
  obtain ⟨p, hp, hf⟩ := h
  refine ⟨p, List.mem_append.mp hp, ?_⟩
  cases hgl : p.getLast? with
  | none =>
    rw [hgl] at hf
    cases hf
  | some m =>
    rw [hgl] at hf
    dsimp only at hf
    split at hf
    · rename_i hd
      cases hf
      exact getLast?_dropLast_eq p n d hgl hd
    · cases hf

theorem pySplitChar_ne_nil (sep : Char) (l : List Char) : pySplitChar sep l ≠ [] := by
  cases l with
  | nil => simp [pySplitChar]
  | cons c cs =>
    simp only [pySplitChar]
    split
    · simp
    · split
      · simp
      · simp

theorem pySplitChar_append_sep (sep : Char) (l : List Char) :
    pySplitChar sep (l ++ [sep]) = pySplitChar sep l ++ [[]] := by
  induction l with
  | nil => simp [pySplitChar]
  | cons c cs ih =>
    rw [List.cons_append]
    simp only [pySplitChar]
    rw [ih]
    split
    · simp
    · cases h : pySplitChar sep cs with
      | nil => exact absurd h (pySplitChar_ne_nil sep cs)
      | cons h0 t0 => simp [h]

theorem normComps_append_nil (isl : Nat) (cs : List (List Char)) :
    normComps isl (cs ++ [[]]) = normComps isl cs := by
  simp [normComps, List.foldl_append]

theorem initSlashes_of_abs (l : List Char) (h1 : l.take 1 = ['/'])
    (h2 : l.take 2 ≠ ['/', '/']) : initSlashes l = 1 := by
  have hc : ¬(l.take 2 = ['/', '/'] ∧ l.take 3 ≠ ['/', '/', '/']) := fun hc => h2 hc.1
  simp [initSlashes, h1, hc]

theorem length_two_le (l : List Char) (h1 : l.take 1 = ['/'])
    (h3 : l.getLast? ≠ some '/') : 2 ≤ l.length := by
  rcases l with _ | ⟨a, _ | ⟨b, t⟩⟩
  · simp at h1
  · exfalso
    apply h3
    simp [List.take] at h1
    simp [List.getLast?, h1]
  · rw [List.length_cons, List.length_cons]
    omega

/-- A trailing separator does not change `normpath` of an absolute,
non-`//`-rooted path that does not already end in a separator. -/
theorem normpath_append_sep (l : List Char) (h1 : l.take 1 = ['/'])
    (h2 : l.take 2 ≠ ['/', '/']) (h3 : l.getLast? ≠ some '/') :
    pyNormpathData (l ++ ['/']) = pyNormpathData l := by
  have hne : l ≠ [] := by
    intro h
    rw [h] at h1
    simp at h1
  have hlen2 : 2 ≤ l.length := length_two_le l h1 h3
  have ht1 : (l ++ ['/']).take 1 = l.take 1 := List.take_append_of_le_length (by omega)
  have ht2 : (l ++ ['/']).take 2 = l.take 2 := List.take_append_of_le_length (by omega)
  have hi1 : initSlashes (l ++ ['/']) = 1 := by
    have hc : ¬((l ++ ['/']).take 2 = ['/', '/'] ∧ (l ++ ['/']).take 3 ≠ ['/', '/', '/']) := by
      rw [ht2]
      exact fun hc => h2 hc.1
    have ht1' : (l ++ ['/']).take 1 = ['/'] := ht1.trans h1
    simp [initSlashes, ht1', hc]
  have hi2 : initSlashes l = 1 := initSlashes_of_abs l h1 h2
  simp only [pyNormpathData, if_neg hne, if_neg (show ¬(l ++ ['/'] = []) by simp)]
  rw [hi1, hi2, pySplitChar_append_sep, normComps_append_nil]

theorem isPrefixOfSelf {α : Type} [BEq α] [LawfulBEq α] (l : List α) :
    l.isPrefixOf l = true := by
  induction l with
  | nil => rfl
  | cons a t ih => simp [List.isPrefixOf, ih]

theorem contains_filter_pre_self (l : List (List String)) (p : List String) :
    (l.filter (fun d => !(p.isPrefixOf d))).contains p = false := by
  cases hc : (l.filter fun d => !(p.isPrefixOf d)).contains p
  · rfl
  · exfalso
    have hm : p ∈ (l.filter fun d => !(p.isPrefixOf d)) := List.elem_iff.mp hc
    rw [List.mem_filter] at hm
    have hpre := hm.2
    rw [isPrefixOfSelf] at hpre
    simp at hpre

theorem lookup_filter_pre (l : List (List String × List Nat)) (p : List String) :
    (l.filter (fun kv => !(p.isPrefixOf kv.1))).lookup p = none := by
  induction l with
  | nil => rfl
  | cons kv t ih =>
    by_cases h : p.isPrefixOf kv.1 = true
    · simp [List.filter, h, ih]
    · have hb : (p.isPrefixOf kv.1) = false := by
        cases hx : p.isPrefixOf kv.1
        · rfl
        · exact absurd hx h
      have hne : ¬(p == kv.1) = true := by
        intro heq
        have : p = kv.1 := by simpa using heq
        rw [this, isPrefixOfSelf] at hb
        cases hb
      have hne2 : (p == kv.1) = false := by
        cases hx : p == kv.1
        · rfl
        · exact absurd hx hne
      simp [List.filter, hb, List.lookup, hne2, ih]

/-- An empty or `/`-only client path resolves to the shared root itself,
for a canonical absolute root. -/
theorem sandboxTarget_rootSelf (root : String) (h1 : root.data.take 1 = ['/'])
    (h2 : root.data.take 2 ≠ ['/', '/']) (hcanon : pyNormpath root = root) (rel : String)
    (hrel : rel = "" ∨ rel = "/") :
    pyNormpath (pyJoin root (lstripSlashes rel)) = root := by
  have hstrip : lstripSlashes rel = "" := by
    rcases hrel with h | h <;> subst h <;> rfl
  rw [hstrip]
  have hne : root.data ≠ [] := by
    intro h
    rw [h] at h1
    simp at h1
  by_cases hlast : root.data.getLast? = some '/'
  · have hj : pyJoinData root.data [] = root.data := by
      simp [pyJoinData, hlast]
    show pyNormpath ⟨pyJoinData root.data []⟩ = root
    rw [hj]
    exact hcanon
  · have hj : pyJoinData root.data [] = root.data ++ ['/'] := by
      simp [pyJoinData, hlast, hne]
    show pyNormpath ⟨pyJoinData root.data []⟩ = root
    rw [hj]
    show (⟨pyNormpathData (root.data ++ ['/'])⟩ : String) = root
    rw [normpath_append_sep root.data h1 h2 hlast]
    exact hcanon

/-- Claim C2 amended: with an empty or `/`-only path — which resolves to the
shared root itself — `UPLOAD` fails (`open` on a directory raises
`IsADirectoryError`, converted to an error response) and `CUT` fails (no
regular file at the root), both leaving the filesystem unchanged; `DELETE`,
however, accepts the directory target: it reports `ok` and removes the
entire shared root tree recursively. -/
theorem C2_root_path_amended (root rel : String) (fs : FS) (data : List Nat)
    (hrel : rel = "" ∨ rel = "/")
    (h1 : root.data.take 1 = ['/'])
    (h2 : root.data.take 2 ≠ ['/', '/'])
    (hcanon : pyNormpath root = root)
    (hsegs : pathSegs root ≠ [])
    (hdn : pyDirname root ≠ "")
    (hdir : isdirFS fs (pathSegs root) = true)
    (hnofile : lookupFileFS fs (pathSegs root) = none)
    (hmk : makedirsFS fs (pyDirname root) = (fs, true)) :
    save_file root rel data fs =
      .ok ({status := "error", message := "[Errno 21] Is a directory: " ++ root}, fs) ∧
    cut_file root rel fs =
      ({status := "error", message := "Archivo no encontrado: " ++ lstripSlashes rel}, fs) ∧
    ((delete_file root rel fs).1.status = "ok" ∧
     (delete_file root rel fs).1.message = "Directorio eliminado: " ++ lstripSlashes rel ∧
     isdirFS (delete_file root rel fs).2 (pathSegs root) = false ∧
     lookupFileFS (delete_file root rel fs).2 (pathSegs root) = none) := by
  have htgt : pyNormpath (pyJoin root (lstripSlashes rel)) = root :=
    sandboxTarget_rootSelf root h1 h2 hcanon rel hrel
  have hsb : pyStartswith (osRealpath root) (osRealpath root) = true := by
    simp [pyStartswith, isPrefixOfSelf]
  have hfile0 : isfileFS fs (pathSegs root) = false := by
    simp [isfileFS, hnofile]
  refine ⟨?_, ?_, ?_⟩
  · simp only [save_file]
    rw [htgt]
    simp only [hsb, Bool.not_true, if_neg (by simp : ¬(false = true))]
    rw [if_pos hdn, hmk]
    simp [hdir]
  · simp only [cut_file]
    rw [htgt]
    simp only [hsb, Bool.not_true, if_neg (by simp : ¬(false = true)), lookupFileFS] at hnofile ⊢
    rw [hnofile]
  · simp only [delete_file]
    rw [htgt]
    have hex : pexistsFS fs (pathSegs root) = true := by
      simp [pexistsFS, isdirFS] at hdir ⊢
      simp [hdir]
    simp only [hsb, Bool.not_true, if_neg (by simp : ¬(false = true)), hex, hdir]
    refine ⟨rfl, rfl, ?_, ?_⟩
    · simp [isdirFS, rmtreeFS, hsegs, contains_filter_pre_self]
    · exact lookup_filter_pre fs.files (pathSegs root)

theorem C2_root_path_amended_witness :
    save_file "/srv/share" "/" [7] sampleFS =
      .ok ({status := "error", message := "[Errno 21] Is a directory: " ++ "/srv/share"},
           sampleFS) ∧
    cut_file "/srv/share" "/" sampleFS =
      ({status := "error", message := "Archivo no encontrado: " ++ lstripSlashes "/"},
       sampleFS) ∧
    (delete_file "/srv/share" "/" sampleFS).1.status = "ok" ∧
    isdirFS (delete_file "/srv/share" "/" sampleFS).2 (pathSegs "/srv/share") = false :=
  have h := C2_root_path_amended "/srv/share" "/" sampleFS [7] (Or.inr rfl) rfl
    (by decide) rfl (by decide) (by decide) rfl rfl rfl
  ⟨h.1, h.2.1, h.2.2.1, h.2.2.2.2.1⟩

/-- Claim C3 amended: a missing `path` is replaced by the default `"/"`, a
missing `size` by `0` (the command then behaves exactly as if the default
had been sent), and only an unknown action produces an `error` response —
after which the loop continues, so the connection remains open. -/
theorem C3_defaults_amended (root : String) (fs : FS) (msg : Cmd) (stream : List Nat) :
    (msg.path = none →
      serverStep root fs msg stream = serverStep root fs {msg with path := some "/"} stream) ∧
    (msg.size = none →
      serverStep root fs msg stream = serverStep root fs {msg with size := some 0} stream) ∧
    (pyUpper (msg.action.getD "") ≠ "LIST" → pyUpper (msg.action.getD "") ≠ "DOWNLOAD" →
     pyUpper (msg.action.getD "") ≠ "UPLOAD" → pyUpper (msg.action.getD "") ≠ "DELETE" →
     pyUpper (msg.action.getD "") ≠ "CUT" →
      serverStep root fs msg stream =
        ([.ctrl {status := "error", message := "Desconocido: " ++ pyUpper (msg.action.getD "")}],
         fs, .cont)) := by
  obtain ⟨nm, a, p, sz, ex⟩ := msg
  refine ⟨?_, ?_, ?_⟩
  · intro h
    subst h
    simp [serverStep]
  · intro h
    subst h
    simp [serverStep]
  · intro h1 h2 h3 h4 h5
    simp only [serverStep]
    rw [if_neg h1, if_neg h2, if_neg h3, if_neg h4, if_neg h5]

theorem C3_defaults_amended_witness :
    ({action := some "LIST"} : Cmd).path = none ∧
    serverStep "/srv/share" sampleFS {action := some "LIST"} [] =
      serverStep "/srv/share" sampleFS {action := some "LIST", path := some "/"} [] ∧
    ({action := some "UPLOAD", path := some "f.txt"} : Cmd).size = none ∧
    serverStep "/srv/share" sampleFS {action := some "UPLOAD", path := some "f.txt"} [] =
      serverStep "/srv/share" sampleFS
        {action := some "UPLOAD", path := some "f.txt", size := some 0} [] :=
  ⟨rfl, (C3_defaults_amended "/srv/share" sampleFS {action := some "LIST"} []).1 rfl,
   rfl, (C3_defaults_amended "/srv/share" sampleFS
          {action := some "UPLOAD", path := some "f.txt"} []).2.1 rfl⟩

/-- Claim C4 amended: the handshake proceeds iff a record with a `name` key
arrived (any string value, the empty string included); whenever it
proceeds, the reply has status `ok`.  An invalid handshake closes the
connection and sends nothing. -/
theorem C4_handshake_amended (m : Option Cmd) :
    (handshake m = .closed ↔ m = none ∨ ∃ c, m = some c ∧ c.name = none) ∧
    (∀ c nm, m = some c → c.name = some nm →
      handshake m = .proceed nm
        {status := "ok", message := "Bienvenido " ++ nm ++ "! Conectado al servidor Clisend."}) := by
  constructor
  · cases m with
    | none => simp [handshake]
    | some c =>
      obtain ⟨onm, a, p, sz, ex⟩ := c
      cases onm with
      | none => simp [handshake]
      | some nm => simp [handshake, cmdTruthy]
  · intro c nm hm hname
    subst hm
    obtain ⟨onm, a, p, sz, ex⟩ := c
    have h : onm = some nm := hname
    subst h
    simp [handshake, cmdTruthy]

theorem C4_handshake_amended_witness :
    handshake (some {name := some "Ana"}) =
      .proceed "Ana" {status := "ok",
                      message := "Bienvenido Ana! Conectado al servidor Clisend."} :=
  (C4_handshake_amended (some {name := some "Ana"})).2 _ "Ana" rfl rfl

/-- Claim C5 amended: a peer close before any of the 4 length bytes, a close
mid-length, and a close mid-payload all make decoding return the same
`None` signal; the codec does not produce a framing failure distinct from
end-of-stream (`async_recv_exact` converts `IncompleteReadError` to `None`,
and the sync `recv_exact` likewise returns `None` on any short read). -/
theorem C5_short_stream_amended (s : List Nat) :
    (s.length < 4 → async_recv_message_frame s = none) ∧
    (4 ≤ s.length → s.length - 4 < unpack32BE (s.take 4) → async_recv_message_frame s = none) := by
  constructor
  · intro h
    have h4 : ¬ (4 ≤ s.length) := by omega
    simp [async_recv_message_frame, async_recv_exact, h4]
  · intro h4 hlen
    have h5 : ¬ (unpack32BE (s.take 4) ≤ s.length - 4) := by omega
    simp [async_recv_message_frame, async_recv_exact, h4, h5]

theorem C5_short_stream_amended_witness :
    ([0] : List Nat).length < 4 ∧ async_recv_message_frame [0] = none ∧
    4 ≤ ([0, 0, 0, 2, 65] : List Nat).length ∧
    ([0, 0, 0, 2, 65] : List Nat).length - 4 < unpack32BE ([0, 0, 0, 2, 65].take 4) ∧
    async_recv_message_frame [0, 0, 0, 2, 65] = none :=
  ⟨by decide, (C5_short_stream_amended [0]).1 (by decide),
   by decide, by decide,
   (C5_short_stream_amended [0, 0, 0, 2, 65]).2 (by decide) (by decide)⟩

/-- Claim C9: each worker's loop handles every dequeued request under a
per-request `try`: an exception escaping the operation (the `.error` case)
is converted into an `error` response that still carries the request's
correlation id; every response carries its request's id; and both the read
and the write worker produce exactly one response per request up to the
first `None` sentinel — no request content stops the loop. -/
theorem C9_worker_isolation :
    (∀ ops fs (req : Request), ((workerStep ops fs req).1).id = req.id) ∧
    (∀ ops fs (req : Request) e fsE, ops req fs = .error (e, fsE) →
       (workerStep ops fs req).1.status = "error" ∧
       (workerStep ops fs req).1.message = "Error interno: " ++ e ∧
       (workerStep ops fs req).1.id = req.id) ∧
    (∀ shared fs reqs,
       (reader_worker shared fs reqs).length = (reqs.takeWhile Option.isSome).length) ∧
    (∀ shared fs reqs,
       (writer_worker shared fs reqs).length = (reqs.takeWhile Option.isSome).length) := by
  refine ⟨?_, ?_, ?_, ?_⟩
  · intro ops fs req
    cases h : ops req fs with
    | ok v => simp [workerStep, h]
    | error v => simp [workerStep, h]
  · intro ops fs req e fsE h
    simp [workerStep, h]
  · intro shared fs reqs
    exact workerRun_length _ fs reqs
  · intro shared fs reqs
    exact workerRun_length _ fs reqs

theorem C9_worker_isolation_witness :
    (workerStep (fun _ fs => .error ("boom", fs)) sampleFS {id := some "req-1"}).1.status = "error" ∧
    (workerStep (fun _ fs => .error ("boom", fs)) sampleFS {id := some "req-1"}).1.message =
      "Error interno: boom" ∧
    (workerStep (fun _ fs => .error ("boom", fs)) sampleFS {id := some "req-1"}).1.id =
      some "req-1" :=
  C9_worker_isolation.2.1 (fun _ fs => .error ("boom", fs)) sampleFS {id := some "req-1"}
    "boom" sampleFS rfl

/-- Claim C10: the server and both workers uppercase the `action` field
before dispatch, so a request's behaviour is unchanged when its action is
replaced by its uppercased form — `"list"`, `"List"` and `"LIST"` all
dispatch identically. -/
theorem C10_case_insensitive_dispatch :
    (∀ shared (req : Request) fs,
       readerOps shared req fs = readerOps shared {req with action := req.action.map pyUpper} fs) ∧
    (∀ shared (req : Request) fs,
       writerOps shared req fs = writerOps shared {req with action := req.action.map pyUpper} fs) ∧
    (∀ shared fs (req : Request),
       workerStep (readerOps shared) fs req =
         workerStep (readerOps shared) fs {req with action := req.action.map pyUpper} ∧
       workerStep (writerOps shared) fs req =
         workerStep (writerOps shared) fs {req with action := req.action.map pyUpper}) ∧
    (∀ shared fs (msg : Cmd) stream,
       serverStep shared fs msg stream =
         serverStep shared fs {msg with action := msg.action.map pyUpper} stream) := by
  have key : ∀ (a : Option String),
      pyUpper ((a.map pyUpper).getD "") = pyUpper (a.getD "") := by
    intro a
    rw [upper_getD, pyUpper_idem]
  have hr : ∀ shared (req : Request) fs,
      readerOps shared req fs = readerOps shared {req with action := req.action.map pyUpper} fs := by
    intro shared req fs
    obtain ⟨i, a, p, d⟩ := req
    simp only [readerOps]
    rw [key a]
  have hw : ∀ shared (req : Request) fs,
      writerOps shared req fs = writerOps shared {req with action := req.action.map pyUpper} fs := by
    intro shared req fs
    obtain ⟨i, a, p, d⟩ := req
    simp only [writerOps]
    rw [key a]
  refine ⟨hr, hw, ?_, ?_⟩
  · intro shared fs req
    constructor
    · show workerStep (readerOps shared) fs req = _
      obtain ⟨i, a, p, d⟩ := req
      simp only [workerStep]
      rw [key a, ← hr shared ⟨i, a, p, d⟩ fs]
    · show workerStep (writerOps shared) fs req = _
      obtain ⟨i, a, p, d⟩ := req
      simp only [workerStep]
      rw [key a, ← hw shared ⟨i, a, p, d⟩ fs]
  · intro shared fs msg stream
    obtain ⟨nm, a, p, sz, ex⟩ := msg
    simp only [serverStep]
    rw [key a]

/-- `contains = false` implies non-membership (over `List String` keys). -/
theorem not_mem_of_contains_false {l : List (List String)} {p : List String}
    (h : l.contains p = false) : p ∉ l := by
  intro hm
  have he : List.elem p l = true := List.elem_iff.mpr hm
  have hc : l.contains p = List.elem p l := rfl
  rw [hc, he] at h
  cases h

/-- Claim C6: when the sandbox check passes and the target is an existing
regular file with content `C` (and not a directory), `CUT` answers `ok`
carrying exactly `C` and its byte length, and removes the file: a
subsequent `DOWNLOAD` of the same path answers the not-found error, and a
subsequent `LIST` of any path resolving to the file's parent directory
contains no entry with the file's name.  When the target is not a regular
file — or the sandbox check fails — `CUT` answers an error and leaves the
filesystem unchanged. -/
theorem C6_cut_semantics (root rel : String) (fs : FS) (C : List Nat)
    (hsb : sandboxOk root rel = true)
    (hfile : lookupFileFS fs (pathSegs (sandboxTarget root rel)) = some C)
    (hnd : isdirFS fs (pathSegs (sandboxTarget root rel)) = false) :
    ((cut_file root rel fs).1.status = "ok" ∧
     (cut_file root rel fs).1.data = some C ∧
     (cut_file root rel fs).1.size = some C.length) ∧
    ((read_file root rel (cut_file root rel fs).2).status = "error" ∧
     (read_file root rel (cut_file root rel fs).2).message =
       "Archivo no encontrado: " ++ lstripSlashes rel) ∧
    (∀ rel' es e,
       (list_files root rel' (cut_file root rel fs).2).entries = some es →
       e ∈ es →
       pathSegs (sandboxTarget root (listRel0 rel')) =
         (pathSegs (sandboxTarget root rel)).dropLast →
       (pathSegs (sandboxTarget root rel)).getLast? ≠ some e.name) ∧
    (∀ (fs₂ : FS), lookupFileFS fs₂ (pathSegs (sandboxTarget root rel)) = none →
       cut_file root rel fs₂ =
         ({status := "error", message := "Archivo no encontrado: " ++ lstripSlashes rel}, fs₂)) ∧
    (∀ root₂ rel₂ (fs₂ : FS), sandboxOk root₂ rel₂ = false →
       cut_file root₂ rel₂ fs₂ = ({status := "error", message := "Ruta no permitida"}, fs₂)) := by
  simp only [sandboxOk, sandboxTarget] at hsb hfile hnd ⊢
  have hcut : cut_file root rel fs =
      ({status := "ok",
        message := "Archivo cortado: " ++ lstripSlashes rel ++ " (" ++ natStr C.length ++ " bytes)",
        data := some C, size := some C.length, path := some (lstripSlashes rel)},
       removeFileFS fs (pathSegs (pyNormpath (pyJoin root (lstripSlashes rel))))) := by
    simp only [cut_file, hsb, Bool.not_true, lookupFileFS] at hfile ⊢
    rw [hfile]
    rfl
  refine ⟨?_, ?_, ?_, ?_, ?_⟩
  · rw [hcut]
    exact ⟨rfl, rfl, rfl⟩
  · rw [hcut]
    have hnone := lookupFileFS_removeFileFS fs (pathSegs (pyNormpath (pyJoin root (lstripSlashes rel))))
    simp only [lookupFileFS] at hnone
    simp only [read_file, hsb, Bool.not_true, lookupFileFS]
    rw [hnone]
    exact ⟨rfl, rfl⟩
  · intro rel' es e hes hmem hpar hlast
    rw [hcut] at hes
    simp only [list_files] at hes
    split at hes
    · cases hes
    · split at hes
      · cases hes
      · cases hes
        simp only [List.mem_map] at hmem
        obtain ⟨nm, hnm, hme⟩ := hmem
        have hname : e.name = nm := by rw [← hme]
        simp only [sortedChildNames] at hnm
        rw [mem_sortNames] at hnm
        obtain ⟨p, hpmem, hpeq⟩ := mem_childNamesFS hnm
        rw [hname] at hlast
        have hP : p = pathSegs (pyNormpath (pyJoin root (lstripSlashes rel))) := by
          rw [hpeq, hpar]
          exact (getLast?_dropLast_eq _ nm _ hlast rfl).symm
        rcases hpmem with hfile2 | hdirs
        · rw [hP] at hfile2
          simp only [removeFileFS, List.mem_map] at hfile2
          obtain ⟨kv, hkv, hkv1⟩ := hfile2
          rw [List.mem_filter] at hkv
          have hne : (kv.1 == pathSegs (pyNormpath (pyJoin root (lstripSlashes rel)))) = false := by
            have := hkv.2
            simpa using this
          rw [hkv1] at hne
          simp at hne
        · rw [hP] at hdirs
          have hdirs2 : pathSegs (pyNormpath (pyJoin root (lstripSlashes rel))) ∈ fs.dirs := hdirs
          simp only [isdirFS, Bool.or_eq_false_iff] at hnd
          exact not_mem_of_contains_false hnd.2 hdirs2
  · intro fs₂ hnone
    simp only [lookupFileFS] at hnone
    simp only [cut_file, hsb, Bool.not_true, lookupFileFS]
    rw [hnone]
    rfl
  · intro root₂ rel₂ fs₂ hbad
    simp only [cut_file, hbad, Bool.not_false]
    rfl

/-- Claim C8: whenever an `UPLOAD` succeeds (returns status `ok`), its
response reports the byte count written, the target file's content is
exactly the uploaded bytes (fully replacing whatever was there), the
target's parent directory exists (created by `makedirs` as needed), and a
subsequent `DOWNLOAD` of the same path with no intervening mutation returns
status `ok` with exactly the uploaded bytes and their length. -/
theorem C8_upload_download (root rel : String) (data : List Nat) (fs : FS)
    (r : Response) (fs' : FS)
    (hok : save_file root rel data fs = .ok (r, fs'))
    (hst : r.status = "ok") :
    r.message = "Archivo guardado: " ++ lstripSlashes rel ++ " (" ++ natStr data.length ++ " bytes)" ∧
    lookupFileFS fs' (pathSegs (sandboxTarget root rel)) = some data ∧
    isdirFS fs' (pathSegs (pyDirname (sandboxTarget root rel))) = true ∧
    read_file root rel fs' =
      {status := "ok", size := some data.length, data := some data,
       path := some (lstripSlashes rel)} := by
  simp only [sandboxTarget]
  simp only [save_file] at hok
  generalize hmd :
    (if pyDirname (pyNormpath (pyJoin root (lstripSlashes rel))) ≠ "" then
       makedirsFS fs (pyDirname (pyNormpath (pyJoin root (lstripSlashes rel))))
     else (fs, true)) = md at hok
  split at hok
  · cases hok
    simp at hst
  · rename_i hsb0
    have hsb : pyStartswith (osRealpath (pyNormpath (pyJoin root (lstripSlashes rel))))
        (osRealpath root) = true := by
      revert hsb0
      cases pyStartswith (osRealpath (pyNormpath (pyJoin root (lstripSlashes rel))))
        (osRealpath root) <;> simp
    split at hok
    · cases hok
    · rename_i hmd2
      split at hok
      · cases hok
        simp at hst
      · rename_i hnd
        cases hok
        have hmdt : md.2 = true := by
          revert hmd2
          cases md.2 <;> simp
        have hpar : isdirFS md.1
            (pathSegs (pyDirname (pyNormpath (pyJoin root (lstripSlashes rel))))) = true := by
          by_cases htd : pyDirname (pyNormpath (pyJoin root (lstripSlashes rel))) = ""
          · rw [htd]
            rfl
          · rw [if_pos htd] at hmd
            exact makedirs_isdir fs _ md.1 (by rw [hmd, ← hmdt])
        have hlook := lookupFileFS_writeFileFS md.1
          (pathSegs (pyNormpath (pyJoin root (lstripSlashes rel)))) data
        refine ⟨rfl, hlook, hpar, ?_⟩
        simp only [read_file, hsb, Bool.not_true, lookupFileFS] at hlook ⊢
        rw [hlook]
        rfl

theorem C8_upload_download_witness :
    save_file "/srv/share" "up/new.txt" [1, 2, 3] sampleFS =
      .ok ({status := "ok", message := "Archivo guardado: up/new.txt (3 bytes)"},
           {files := [(["srv", "share", "up", "new.txt"], [1, 2, 3]),
                      (["srv", "share", "a.txt"], [65])],
            dirs := [["srv", "share", "up"], ["srv"], ["srv", "share"]]}) ∧
    read_file "/srv/share" "up/new.txt"
        {files := [(["srv", "share", "up", "new.txt"], [1, 2, 3]),
                   (["srv", "share", "a.txt"], [65])],
         dirs := [["srv", "share", "up"], ["srv"], ["srv", "share"]]} =
      {status := "ok", size := some 3, data := some [1, 2, 3], path := some "up/new.txt"} :=
  ⟨rfl,
   (C8_upload_download "/srv/share" "up/new.txt" [1, 2, 3] sampleFS _ _ rfl rfl).2.2.2⟩

theorem C6_cut_semantics_witness :
    sandboxOk "/srv/share" "a.txt" = true ∧
    lookupFileFS sampleFS (pathSegs (sandboxTarget "/srv/share" "a.txt")) = some [65] ∧
    isdirFS sampleFS (pathSegs (sandboxTarget "/srv/share" "a.txt")) = false ∧
    (cut_file "/srv/share" "a.txt" sampleFS).1.status = "ok" ∧
    (cut_file "/srv/share" "a.txt" sampleFS).1.data = some [65] :=
  ⟨rfl, rfl, rfl,
   (C6_cut_semantics "/srv/share" "a.txt" sampleFS [65] rfl rfl rfl).1.1,
   (C6_cut_semantics "/srv/share" "a.txt" sampleFS [65] rfl rfl rfl).1.2.1⟩

/-! ### Round-trip of the payload codec (C7) -/

theorem char_toNat_valid (c : Char) :
    c.toNat < 55296 ∨ (57343 < c.toNat ∧ c.toNat < 1114112) := by
  have h := c.valid
  simp only [UInt32.isValidChar, Nat.isValidChar] at h
  exact h

theorem hexVal_hexDigitChar (m : Nat) (h : m < 16) : hexVal (hexDigitChar m) = some m := by
  by_cases h10 : m < 10
  · have ht : (Char.ofNat (48 + m)).toNat = 48 + m := toNat_charOfNat _ (by omega)
    simp only [hexDigitChar]
    rw [if_pos h10]
    simp only [hexVal, ht]
    rw [if_pos (by omega)]
    congr 1
    omega
  · have ht : (Char.ofNat (87 + m)).toNat = 87 + m := toNat_charOfNat _ (by omega)
    simp only [hexDigitChar]
    rw [if_neg h10]
    simp only [hexVal, ht]
    rw [if_neg (by omega), if_pos (by omega)]
    congr 1
    omega

theorem parseUnits_quote (X : List Char) : parseUnits ('"' :: X) = some ([], X) := by
  rw [parseUnits.eq_def]
  rfl

theorem parseUnits_esc (e c2 : Char) (X : List Char) (hu : e ≠ 'u')
    (h : escCharInv e = some c2) :
    parseUnits ('\\' :: e :: X) = (parseUnits X).map (fun p => (c2.toNat :: p.1, p.2)) := by
  rw [parseUnits.eq_def]
  dsimp only
  rw [if_neg (by decide), if_pos rfl, if_neg hu, h]

theorem parseUnits_cons (c : Char) (X : List Char) (h1 : c ≠ '"') (h2 : c ≠ '\\') :
    parseUnits (c :: X) = (parseUnits X).map (fun p => (c.toNat :: p.1, p.2)) := by
  rw [parseUnits.eq_def]
  dsimp only
  rw [if_neg h1, if_neg h2]

theorem parseUnits_u (n : Nat) (X : List Char) (h : n < 65536) :
    parseUnits ('\\' :: 'u' :: (hex4 n ++ X)) =
      (parseUnits X).map (fun p => (n :: p.1, p.2)) := by
  have harith : (((n / 4096 % 16) * 16 + n / 256 % 16) * 16 + n / 16 % 16) * 16 + n % 16
      = n := by omega
  simp only [hex4, List.cons_append, List.nil_append]
  rw [parseUnits.eq_def]
  dsimp only
  rw [if_neg (by decide), if_pos rfl,
      hexVal_hexDigitChar (n / 4096 % 16) (by omega),
      hexVal_hexDigitChar (n / 256 % 16) (by omega),
      hexVal_hexDigitChar (n / 16 % 16) (by omega),
      hexVal_hexDigitChar (n % 16) (by omega)]
  dsimp only
  rw [harith, if_pos rfl]

/-- Scanning the escaped form of a character list yields its code units. -/
theorem parseUnits_flatten (l : List Char) (rest : List Char) :
    parseUnits ((l.map escapeChar).flatten ++ '"' :: rest) =
      some ((l.map charUnits).flatten, rest) := by
  induction l with
  | nil =>
    rw [List.map_nil, List.flatten_nil, List.nil_append, parseUnits_quote,
        List.map_nil, List.flatten_nil]
  | cons c cs ih =>
    rw [List.map_cons, List.flatten_cons, List.append_assoc,
        List.map_cons, List.flatten_cons]
    by_cases hbs : c = '\\'
    · subst hbs
      rw [show escapeChar '\\' = ['\\', '\\'] from rfl, List.cons_append, List.cons_append,
          List.nil_append, parseUnits_esc '\\' '\\' _ (by decide) rfl, ih]
      rfl
    · by_cases hq : c = '"'
      · subst hq
        rw [show escapeChar '"' = ['\\', '"'] from rfl, List.cons_append, List.cons_append,
            List.nil_append, parseUnits_esc '"' '"' _ (by decide) rfl, ih]
        rfl
      · by_cases h8 : c.toNat = 8
        · have he : escapeChar c = ['\\', 'b'] := by
            simp only [escapeChar]
            rw [if_neg hbs, if_neg hq, if_pos h8]
          have hcu : charUnits c = [8] := by
            simp only [charUnits]
            rw [if_pos (by omega), h8]
          rw [he, hcu, List.cons_append, List.cons_append, List.nil_append,
              parseUnits_esc 'b' (Char.ofNat 8) _ (by decide) rfl, ih]
          rfl
        · by_cases h9 : c.toNat = 9
          · have he : escapeChar c = ['\\', 't'] := by
              simp only [escapeChar]
              rw [if_neg hbs, if_neg hq, if_neg h8, if_pos h9]
            have hcu : charUnits c = [9] := by
              simp only [charUnits]
              rw [if_pos (by omega), h9]
            rw [he, hcu, List.cons_append, List.cons_append, List.nil_append,
                parseUnits_esc 't' (Char.ofNat 9) _ (by decide) rfl, ih]
            rfl
          · by_cases h10 : c.toNat = 10
            · have he : escapeChar c = ['\\', 'n'] := by
                simp only [escapeChar]
                rw [if_neg hbs, if_neg hq, if_neg h8, if_neg h9, if_pos h10]
              have hcu : charUnits c = [10] := by
                simp only [charUnits]
                rw [if_pos (by omega), h10]
              rw [he, hcu, List.cons_append, List.cons_append, List.nil_append,
                  parseUnits_esc 'n' (Char.ofNat 10) _ (by decide) rfl, ih]
              rfl
            · by_cases h12 : c.toNat = 12
              · have he : escapeChar c = ['\\', 'f'] := by
                  simp only [escapeChar]
                  rw [if_neg hbs, if_neg hq, if_neg h8, if_neg h9, if_neg h10, if_pos h12]
                have hcu : charUnits c = [12] := by
                  simp only [charUnits]
                  rw [if_pos (by omega), h12]
                rw [he, hcu, List.cons_append, List.cons_append, List.nil_append,
                    parseUnits_esc 'f' (Char.ofNat 12) _ (by decide) rfl, ih]
                rfl
              · by_cases h13 : c.toNat = 13
                · have he : escapeChar c = ['\\', 'r'] := by
                    simp only [escapeChar]
                    rw [if_neg hbs, if_neg hq, if_neg h8, if_neg h9, if_neg h10, if_neg h12,
                        if_pos h13]
                  have hcu : charUnits c = [13] := by
                    simp only [charUnits]
                    rw [if_pos (by omega), h13]
                  rw [he, hcu, List.cons_append, List.cons_append, List.nil_append,
                      parseUnits_esc 'r' (Char.ofNat 13) _ (by decide) rfl, ih]
                  rfl
                · by_cases hpr : 32 ≤ c.toNat ∧ c.toNat ≤ 126
                  · have he : escapeChar c = [c] := by
                      simp only [escapeChar]
                      rw [if_neg hbs, if_neg hq, if_neg h8, if_neg h9, if_neg h10, if_neg h12,
                          if_neg h13, if_pos hpr]
                    have hcu : charUnits c = [c.toNat] := by
                      simp only [charUnits]
                      rw [if_pos (by omega)]
                    rw [he, hcu, List.singleton_append, parseUnits_cons c _ hq hbs, ih]
                    rfl
                  · by_cases hbmp : c.toNat < 65536
                    · have he : escapeChar c = '\\' :: 'u' :: hex4 c.toNat := by
                        simp only [escapeChar]
                        rw [if_neg hbs, if_neg hq, if_neg h8, if_neg h9, if_neg h10,
                            if_neg h12, if_neg h13, if_neg hpr, if_pos hbmp]
                      have hcu : charUnits c = [c.toNat] := by
                        simp only [charUnits]
                        rw [if_pos hbmp]
                      rw [he, hcu, List.cons_append, List.cons_append,
                          parseUnits_u c.toNat _ hbmp, ih]
                      rfl
                    · have hv := char_toNat_valid c
                      have he : escapeChar c =
                          '\\' :: 'u' :: hex4 (55296 + (c.toNat - 65536) / 1024) ++
                          '\\' :: 'u' :: hex4 (56320 + (c.toNat - 65536) % 1024) := by
                        simp only [escapeChar]
                        rw [if_neg hbs, if_neg hq, if_neg h8, if_neg h9, if_neg h10,
                            if_neg h12, if_neg h13, if_neg hpr, if_neg hbmp]
                      have hcu : charUnits c = [55296 + (c.toNat - 65536) / 1024,
                          56320 + (c.toNat - 65536) % 1024] := by
                        simp only [charUnits]
                        rw [if_neg hbmp]
                      have hhib : 55296 + (c.toNat - 65536) / 1024 < 65536 := by
                        rcases hv with h | h
                        · omega
                        · omega
                      rw [he, hcu]
                      simp only [List.cons_append, List.append_assoc, List.nil_append]
                      rw [parseUnits_u _ _ hhib, parseUnits_u _ _ (by omega), ih]
                      rfl

/-- Pairing the code units of a character list recovers the characters. -/
theorem combineUnits_flatten (l : List Char) :
    combineUnits ((l.map charUnits).flatten) = some l := by
  induction l with
  | nil => rfl
  | cons c cs ih =>
    rw [List.map_cons, List.flatten_cons]
    have hv := char_toNat_valid c
    by_cases hbmp : c.toNat < 65536
    · have hcu : charUnits c = [c.toNat] := by
        simp only [charUnits]
        rw [if_pos hbmp]
      rw [hcu, List.singleton_append, combineUnits.eq_def]
      dsimp only
      rw [if_neg (by rcases hv with h | h <;> omega),
          if_neg (by rcases hv with h | h <;> omega), ih, Char.ofNat_toNat]
      rfl
    · have hcu : charUnits c = [55296 + (c.toNat - 65536) / 1024,
          56320 + (c.toNat - 65536) % 1024] := by
        simp only [charUnits]
        rw [if_neg hbmp]
      have hcomb : 65536 + ((55296 + (c.toNat - 65536) / 1024) - 55296) * 1024 +
          ((56320 + (c.toNat - 65536) % 1024) - 56320) = c.toNat := by omega
      rw [hcu, List.cons_append, List.cons_append, List.nil_append, combineUnits.eq_def]
      dsimp only
      rw [if_pos (by rcases hv with h | h <;> omega), if_pos (by omega), ih, hcomb,
          Char.ofNat_toNat]
      rfl

/-- Escaping then parsing any string body is the identity. -/
theorem parseStr_roundtrip (l : List Char) (rest : List Char) :
    parseStrChars ((l.map escapeChar).flatten ++ '"' :: rest) = some (l, rest) := by
  simp only [parseStrChars]
  rw [parseUnits_flatten l rest]
  dsimp only
  rw [combineUnits_flatten l]

theorem natToCharsAux_digits (fuel : Nat) :
    ∀ n, (natToCharsAux fuel n).all pyIsDigit = true := by
  induction fuel with
  | zero => intro n; rfl
  | succ f ih =>
    intro n
    rw [natToCharsAux]
    split
    · rename_i h
      have hd : (Char.ofNat (48 + n)).toNat = 48 + n := toNat_charOfNat _ (by omega)
      simp [pyIsDigit, hd]
      omega
    · rw [List.all_append, ih (n / 10)]
      have hm : n % 10 < 10 := Nat.mod_lt _ (by omega)
      have hd : (Char.ofNat (48 + n % 10)).toNat = 48 + n % 10 := toNat_charOfNat _ (by omega)
      simp [pyIsDigit, hd]
      omega

theorem natToChars_ne_nil (n : Nat) : natToChars n ≠ [] := by
  rw [natToChars, natToCharsAux]
  split
  · simp
  · simp

theorem parseNatAux_natToCharsAux (fuel : Nat) : ∀ n, n < fuel →
    ∀ acc rest, parseNatAux (natToCharsAux fuel n ++ rest) acc =
      parseNatAux rest (acc * 10 ^ (natToCharsAux fuel n).length + n) := by
  induction fuel with
  | zero => intro n h; omega
  | succ f ih =>
    intro n hn acc rest
    rw [natToCharsAux]
    split
    · rename_i h
      have hd : (Char.ofNat (48 + n)).toNat = 48 + n := toNat_charOfNat _ (by omega)
      rw [List.cons_append, List.nil_append, parseNatAux]
      rw [if_pos (by simp [pyIsDigit, hd]; omega)]
      rw [hd]
      have h1 : ([Char.ofNat (48 + n)] : List Char).length = 1 := rfl
      rw [h1, pow_one]
      congr 1
      omega
    · rename_i h
      rw [List.append_assoc, List.cons_append, List.nil_append,
          ih (n / 10) (by omega) acc (Char.ofNat (48 + n % 10) :: rest)]
      have hm : n % 10 < 10 := Nat.mod_lt _ (by omega)
      have hd : (Char.ofNat (48 + n % 10)).toNat = 48 + n % 10 := toNat_charOfNat _ (by omega)
      rw [parseNatAux]
      rw [if_pos (by simp [pyIsDigit, hd]; omega)]
      rw [hd]
      have harith : (acc * 10 ^ (natToCharsAux f (n / 10)).length + n / 10) * 10 +
          (48 + n % 10 - 48) =
          acc * 10 ^ (natToCharsAux f (n / 10) ++ [Char.ofNat (48 + n % 10)]).length + n := by
        rw [List.length_append, List.length_cons, List.length_nil]
        have hmod : n / 10 * 10 + n % 10 = n := by omega
        have hsub : 48 + n % 10 - 48 = n % 10 := by omega
        rw [hsub]
        calc (acc * 10 ^ (natToCharsAux f (n / 10)).length + n / 10) * 10 + n % 10
            = acc * (10 ^ (natToCharsAux f (n / 10)).length * 10) + (n / 10 * 10 + n % 10) := by
              ring
          _ = acc * 10 ^ ((natToCharsAux f (n / 10)).length + (0 + 1)) + n := by
              rw [hmod, Nat.zero_add, pow_succ]
      rw [harith]

/-- Printing then parsing a decimal literal is the identity, when what
follows does not begin with another digit. -/
theorem parseNat_roundtrip (n : Nat) (rest : List Char) (h : headNotDigit rest = true) :
    parseNatAux (natToChars n ++ rest) 0 = (n, rest) := by
  rw [natToChars, parseNatAux_natToCharsAux (n + 1) n (by omega) 0 rest]
  rw [Nat.zero_mul, Nat.zero_add]
  cases rest with
  | nil => rfl
  | cons c t =>
    rw [headNotDigit] at h
    have hc : pyIsDigit c = false := by
      cases hx : pyIsDigit c
      · rfl
      · rw [hx] at h; cases h
    rw [parseNatAux, if_neg (by rw [hc]; exact Bool.false_ne_true)]

theorem parseJ_quote (fuel : Nat) (cs : List Char) :
    parseJ (fuel + 1) ('"' :: cs) =
      (parseStrChars cs).map (fun p => (.jstr ⟨p.1⟩, p.2)) := by
  simp only [parseJ, parsers]
  rw [if_pos trivial]

theorem parseJ_true (fuel : Nat) (rest : List Char) :
    parseJ (fuel + 1) ('t' :: 'r' :: 'u' :: 'e' :: rest) = some (.jbool true, rest) := by
  simp only [parseJ, parsers]
  rfl

theorem parseJ_false (fuel : Nat) (rest : List Char) :
    parseJ (fuel + 1) ('f' :: 'a' :: 'l' :: 's' :: 'e' :: rest) = some (.jbool false, rest) := by
  simp only [parseJ, parsers]
  rfl

theorem parseJ_arr_nil (fuel : Nat) (rest : List Char) :
    parseJ (fuel + 1) ('[' :: ']' :: rest) = some (.jarr .anil, rest) := by
  simp only [parseJ, parsers]
  rfl

theorem parseJ_arr_cons (fuel : Nat) (c : Char) (rest : List Char) (h : c ≠ ']') :
    parseJ (fuel + 1) ('[' :: c :: rest) =
      (parseArr fuel (c :: rest)).map (fun p => (.jarr p.1, p.2)) := by
  simp only [parseJ, parseArr, parsers]
  rw [if_neg (by decide), if_neg (by decide), if_neg (by decide), if_pos trivial, if_neg h]

theorem parseJ_obj_nil (fuel : Nat) (rest : List Char) :
    parseJ (fuel + 1) (obraceChar :: cbraceChar :: rest) = some (.jobj .onil, rest) := by
  simp only [parseJ, parsers]
  rw [if_neg (by decide), if_neg (by decide), if_neg (by decide), if_neg (by decide),
      if_pos trivial, if_pos trivial]

theorem parseJ_obj_cons (fuel : Nat) (c : Char) (rest : List Char) (h : c ≠ cbraceChar) :
    parseJ (fuel + 1) (obraceChar :: c :: rest) =
      (parseObj fuel (c :: rest)).map (fun p => (.jobj p.1, p.2)) := by
  simp only [parseJ, parseObj, parsers]
  rw [if_neg (by decide), if_neg (by decide), if_neg (by decide), if_neg (by decide),
      if_pos trivial, if_neg h]

theorem parseJ_digit (fuel : Nat) (c : Char) (cs : List Char) (hdig : pyIsDigit c = true)
    (h1 : c ≠ '"') (h2 : c ≠ 't') (h3 : c ≠ 'f') (h4 : c ≠ '[') (h5 : c ≠ obraceChar) :
    parseJ (fuel + 1) (c :: cs) =
      some (.jnum (parseNatAux (c :: cs) 0).1, (parseNatAux (c :: cs) 0).2) := by
  simp only [parseJ, parsers]
  rw [if_neg h1, if_neg h2, if_neg h3, if_neg h4, if_neg h5, if_pos hdig]

theorem parseArr_succ (fuel : Nat) (cs : List Char) :
    parseArr (fuel + 1) cs =
      match parseJ fuel cs with
      | none => none
      | some (v, rest) =>
        match rest with
        | ']' :: rest2 => some (.acons v .anil, rest2)
        | ',' :: ' ' :: rest2 => (parseArr fuel rest2).map (fun p => (.acons v p.1, p.2))
        | _ => none := by
  simp only [parseArr, parseJ, parsers]

theorem parseObj_succ (fuel : Nat) (cs : List Char) :
    parseObj (fuel + 1) cs =
      match cs with
      | '"' :: cs2 =>
        match parseStrChars cs2 with
        | none => none
        | some (k, rest) =>
          match rest with
          | ':' :: ' ' :: rest2 =>
            match parseJ fuel rest2 with
            | none => none
            | some (v, rest3) =>
              match rest3 with
              | [] => none
              | c3 :: rest4 =>
                if c3 = cbraceChar then some (.ocons ⟨k⟩ v .onil, rest4)
                else if c3 = ',' then
                  match rest4 with
                  | ' ' :: rest5 => (parseObj fuel rest5).map (fun p => (.ocons ⟨k⟩ v p.1, p.2))
                  | _ => none
                else none
          | _ => none
      | _ => none := by
  simp only [parseObj, parseJ, parsers]

/-- Every serialized value is nonempty and starts with one of the
dispatching characters. -/
theorem dumpJ_cons (v : JVal) : ∃ c t, dumpJ v = c :: t ∧
    (c = '"' ∨ c = 't' ∨ c = 'f' ∨ c = '[' ∨ c = obraceChar ∨ pyIsDigit c = true) := by
  cases v with
  | jstr s => exact ⟨'"', _, rfl, Or.inl rfl⟩
  | jnum n =>
    cases hd : natToChars n with
    | nil => exact absurd hd (natToChars_ne_nil n)
    | cons c t =>
      refine ⟨c, t, hd, Or.inr (Or.inr (Or.inr (Or.inr (Or.inr ?_))))⟩
      have hall : (natToChars n).all pyIsDigit = true := natToCharsAux_digits (n + 1) n
      rw [hd, List.all_cons, Bool.and_eq_true] at hall
      exact hall.1
  | jbool b =>
    cases b
    · exact ⟨'f', _, rfl, Or.inr (Or.inr (Or.inl rfl))⟩
    · exact ⟨'t', _, rfl, Or.inr (Or.inl rfl)⟩
  | jarr xs => exact ⟨'[', _, rfl, Or.inr (Or.inr (Or.inr (Or.inl rfl)))⟩
  | jobj kvs => exact ⟨obraceChar, _, rfl, Or.inr (Or.inr (Or.inr (Or.inr (Or.inl rfl))))⟩

theorem dumpJ_ne_nil (v : JVal) : dumpJ v ≠ [] := by
  obtain ⟨c, t, hd, _⟩ := dumpJ_cons v
  rw [hd]
  intro h
  cases h

theorem dumpJ_head_ne (v : JVal) : ∃ c t, dumpJ v = c :: t ∧ c ≠ ']' := by
  obtain ⟨c, t, hd, hc⟩ := dumpJ_cons v
  refine ⟨c, t, hd, ?_⟩
  rcases hc with h | h | h | h | h | h
  · subst h; decide
  · subst h; decide
  · subst h; decide
  · subst h; decide
  · subst h; decide
  · intro he
    subst he
    rw [show pyIsDigit ']' = false from rfl] at h
    cases h

mutual
/-- The required parsing fuel is bounded by the serialized length. -/
theorem jsizeJ_le (v : JVal) : jsizeJ v ≤ (dumpJ v).length + 1 := by
  cases v with
  | jstr s => simp [jsizeJ]
  | jnum n => simp [jsizeJ]
  | jbool b => simp [jsizeJ]
  | jarr xs =>
    have h := jsizeA_le xs
    simp only [jsizeJ, dumpJ, List.length_cons, List.length_append]
    omega
  | jobj kvs =>
    have h := jsizeO_le kvs
    simp only [jsizeJ, dumpJ, List.length_cons, List.length_append]
    omega
theorem jsizeA_le (xs : JArr) : jsizeA xs ≤ (dumpArr xs).length + 2 := by
  cases xs with
  | anil => simp [jsizeA]
  | acons v tl =>
    cases tl with
    | anil =>
      have h := jsizeJ_le v
      simp only [jsizeA, dumpArr]
      omega
    | acons w tl2 =>
      have h1 := jsizeJ_le v
      have h2 := jsizeA_le (.acons w tl2)
      simp only [jsizeA, dumpArr, List.length_append, List.length_cons] at h2 ⊢
      omega
theorem jsizeO_le (kvs : JObj) : jsizeO kvs ≤ (dumpObj kvs).length + 2 := by
  cases kvs with
  | onil => simp [jsizeO]
  | ocons k v tl =>
    cases tl with
    | onil =>
      have h := jsizeJ_le v
      simp only [jsizeO, dumpObj, List.length_append, List.length_cons]
      omega
    | ocons k2 w tl2 =>
      have h1 := jsizeJ_le v
      have h2 := jsizeO_le (.ocons k2 w tl2)
      simp only [jsizeO, dumpObj, List.length_append, List.length_cons] at h2 ⊢
      omega
end


theorem parseArr_done (fuel : Nat) (cs rest2 : List Char) (v : JVal)
    (h : parseJ fuel cs = some (v, ']' :: rest2)) :
    parseArr (fuel + 1) cs = some (.acons v .anil, rest2) := by
  rw [parseArr_succ, h]
  rfl

theorem parseArr_more (fuel : Nat) (cs rest2 : List Char) (v : JVal)
    (h : parseJ fuel cs = some (v, ',' :: ' ' :: rest2)) :
    parseArr (fuel + 1) cs = (parseArr fuel rest2).map (fun p => (.acons v p.1, p.2)) := by
  rw [parseArr_succ, h]
  rfl

theorem parseObj_afterKey (fuel : Nat) (cs2 k rest2 : List Char)
    (hk : parseStrChars cs2 = some (k, ':' :: ' ' :: rest2)) :
    parseObj (fuel + 1) ('"' :: cs2) =
      match parseJ fuel rest2 with
      | none => none
      | some (v, rest3) =>
        match rest3 with
        | [] => none
        | c3 :: rest4 =>
          if c3 = cbraceChar then some (.ocons ⟨k⟩ v .onil, rest4)
          else if c3 = ',' then
            match rest4 with
            | ' ' :: rest5 => (parseObj fuel rest5).map (fun p => (.ocons ⟨k⟩ v p.1, p.2))
            | _ => none
          else none := by
  have h0 : parseObj (fuel + 1) ('"' :: cs2) =
      match parseStrChars cs2 with
      | none => none
      | some (k, rest) =>
        match rest with
        | ':' :: ' ' :: rest2 =>
          match parseJ fuel rest2 with
          | none => none
          | some (v, rest3) =>
            match rest3 with
            | [] => none
            | c3 :: rest4 =>
              if c3 = cbraceChar then some (.ocons ⟨k⟩ v .onil, rest4)
              else if c3 = ',' then
                match rest4 with
                | ' ' :: rest5 => (parseObj fuel rest5).map (fun p => (.ocons ⟨k⟩ v p.1, p.2))
                | _ => none
              else none
        | _ => none := by
    rw [parseObj_succ]
    rfl
  rw [h0, hk]
  rfl

theorem parseObj_done (fuel : Nat) (cs2 k rest2 rest4 : List Char) (v : JVal)
    (hk : parseStrChars cs2 = some (k, ':' :: ' ' :: rest2))
    (hv : parseJ fuel rest2 = some (v, cbraceChar :: rest4)) :
    parseObj (fuel + 1) ('"' :: cs2) = some (.ocons ⟨k⟩ v .onil, rest4) := by
  rw [parseObj_afterKey fuel cs2 k rest2 hk, hv]
  rfl

theorem parseObj_more (fuel : Nat) (cs2 k rest2 rest5 : List Char) (v : JVal)
    (hk : parseStrChars cs2 = some (k, ':' :: ' ' :: rest2))
    (hv : parseJ fuel rest2 = some (v, ',' :: ' ' :: rest5)) :
    parseObj (fuel + 1) ('"' :: cs2) =
      (parseObj fuel rest5).map (fun p => (.ocons ⟨k⟩ v p.1, p.2)) := by
  rw [parseObj_afterKey fuel cs2 k rest2 hk, hv]
  rfl

mutual
/-- Serializing any record and parsing it back (with enough fuel, in any
right context whose head is not a digit) is the identity. -/
theorem parse_dump_val : ∀ (v : JVal) (fuel : Nat) (rest : List Char),
    jsizeJ v ≤ fuel → headNotDigit rest = true →
    parseJ fuel (dumpJ v ++ rest) = some (v, rest)
  | v, 0, _, hsz, _ => by
    exfalso
    cases v <;> simp [jsizeJ] at hsz
  | .jstr s, fuel + 1, rest, _, _ => by
    simp only [dumpJ, dumpStr, List.cons_append, List.append_assoc, List.singleton_append,
      List.nil_append]
    rw [parseJ_quote, parseStr_roundtrip s.data rest]
    rfl
  | .jnum n, fuel + 1, rest, _, hnd => by
    simp only [dumpJ]
    cases hd : natToChars n with
    | nil => exact absurd hd (natToChars_ne_nil n)
    | cons c t =>
      have hdig : pyIsDigit c = true := by
        have hall : (natToChars n).all pyIsDigit = true := natToCharsAux_digits (n + 1) n
        rw [hd, List.all_cons, Bool.and_eq_true] at hall
        exact hall.1
      have h1 : c ≠ '"' := fun he => absurd hdig (by rw [he]; decide)
      have h2 : c ≠ 't' := fun he => absurd hdig (by rw [he]; decide)
      have h3 : c ≠ 'f' := fun he => absurd hdig (by rw [he]; decide)
      have h4 : c ≠ '[' := fun he => absurd hdig (by rw [he]; decide)
      have h5 : c ≠ obraceChar := fun he => absurd hdig (by rw [he]; decide)
      rw [List.cons_append, parseJ_digit fuel c (t ++ rest) hdig h1 h2 h3 h4 h5,
          ← List.cons_append, ← hd, parseNat_roundtrip n rest hnd]
  | .jbool true, fuel + 1, rest, _, _ => by
    simp only [dumpJ, if_true, List.cons_append, List.nil_append]
    rw [parseJ_true]
  | .jbool false, fuel + 1, rest, _, _ => by
    simp only [dumpJ, Bool.false_eq_true, if_false, List.cons_append, List.nil_append]
    rw [parseJ_false]
  | .jarr .anil, fuel + 1, rest, _, _ => by
    simp only [dumpJ, dumpArr, List.nil_append, List.cons_append, List.singleton_append]
    rw [parseJ_arr_nil]
  | .jarr (.acons v tl), fuel + 1, rest, hsz, _ => by
    simp only [dumpJ, List.cons_append, List.append_assoc, List.singleton_append,
      List.nil_append]
    obtain ⟨c0, t0, hdv, hne⟩ := dumpJ_head_ne v
    have hT : ∃ T, dumpArr (.acons v tl) = c0 :: T := by
      cases tl with
      | anil => exact ⟨t0, by simp only [dumpArr]; rw [hdv]⟩
      | acons w tl2 =>
        refine ⟨t0 ++ ',' :: ' ' :: dumpArr (.acons w tl2), ?_⟩
        simp only [dumpArr]
        rw [hdv, List.cons_append]
    obtain ⟨T, hT⟩ := hT
    rw [hT, List.cons_append, parseJ_arr_cons fuel c0 (T ++ ']' :: rest) hne,
        ← List.cons_append, ← hT,
        parse_dump_arr (.acons v tl) fuel rest (by intro h; cases h)
          (by simp only [jsizeJ] at hsz; omega)]
    rfl
  | .jobj .onil, fuel + 1, rest, _, _ => by
    simp only [dumpJ, dumpObj, List.nil_append, List.cons_append, List.singleton_append]
    rw [parseJ_obj_nil]
  | .jobj (.ocons k v tl), fuel + 1, rest, hsz, _ => by
    simp only [dumpJ, List.cons_append, List.append_assoc, List.singleton_append,
      List.nil_append]
    have hT : ∃ T, dumpObj (.ocons k v tl) = '"' :: T := by
      cases tl with
      | onil =>
        refine ⟨(k.data.map escapeChar).flatten ++ '"' :: ':' :: ' ' :: dumpJ v, ?_⟩
        simp only [dumpObj, dumpStr, List.cons_append, List.append_assoc,
          List.singleton_append, List.nil_append]
      | ocons k2 w tl2 =>
        refine ⟨(k.data.map escapeChar).flatten ++ '"' :: ':' :: ' ' ::
          (dumpJ v ++ ',' :: ' ' :: dumpObj (.ocons k2 w tl2)), ?_⟩
        simp only [dumpObj, dumpStr, List.cons_append, List.append_assoc,
          List.singleton_append, List.nil_append]
    obtain ⟨T, hT⟩ := hT
    rw [hT, List.cons_append, parseJ_obj_cons fuel '"' (T ++ cbraceChar :: rest) (by decide),
        ← List.cons_append, ← hT,
        parse_dump_obj (.ocons k v tl) fuel rest (by intro h; cases h)
          (by simp only [jsizeJ] at hsz; omega)]
    rfl
theorem parse_dump_arr : ∀ (xs : JArr) (fuel : Nat) (rest : List Char),
    xs ≠ .anil → jsizeA xs ≤ fuel →
    parseArr fuel (dumpArr xs ++ ']' :: rest) = some (xs, rest)
  | .anil, _, _, hne, _ => absurd rfl hne
  | .acons _ _, 0, _, _, hsz => by
    exfalso
    simp only [jsizeA] at hsz
    omega
  | .acons v .anil, fuel + 1, rest, _, hsz => by
    simp only [dumpArr]
    exact parseArr_done fuel _ rest v (parse_dump_val v fuel (']' :: rest)
      (by simp only [jsizeA] at hsz; omega) (by rfl))
  | .acons v (.acons w tl2), fuel + 1, rest, _, hsz => by
    simp only [dumpArr, List.cons_append, List.append_assoc]
    rw [parseArr_more fuel _ _ v (parse_dump_val v fuel
        (',' :: ' ' :: (dumpArr (.acons w tl2) ++ ']' :: rest))
        (by simp only [jsizeA] at hsz; omega) (by rfl)),
      parse_dump_arr (.acons w tl2) fuel rest (by intro h; cases h)
        (by simp only [jsizeA] at hsz ⊢; omega)]
    rfl
theorem parse_dump_obj : ∀ (kvs : JObj) (fuel : Nat) (rest : List Char),
    kvs ≠ .onil → jsizeO kvs ≤ fuel →
    parseObj fuel (dumpObj kvs ++ cbraceChar :: rest) = some (kvs, rest)
  | .onil, _, _, hne, _ => absurd rfl hne
  | .ocons _ _ _, 0, _, _, hsz => by
    exfalso
    simp only [jsizeO] at hsz
    omega
  | .ocons k v .onil, fuel + 1, rest, _, hsz => by
    simp only [dumpObj, dumpStr, List.cons_append, List.append_assoc, List.singleton_append,
      List.nil_append]
    exact parseObj_done fuel _ k.data _ rest v
      (parseStr_roundtrip k.data _)
      (parse_dump_val v fuel (cbraceChar :: rest) (by simp only [jsizeO] at hsz; omega)
        (by rfl))
  | .ocons k v (.ocons k2 w tl2), fuel + 1, rest, _, hsz => by
    simp only [dumpObj, dumpStr, List.cons_append, List.append_assoc, List.singleton_append,
      List.nil_append]
    rw [parseObj_more fuel _ k.data _ _ v
        (parseStr_roundtrip k.data _)
        (parse_dump_val v fuel
          (',' :: ' ' :: (dumpObj (.ocons k2 w tl2) ++ cbraceChar :: rest))
          (by simp only [jsizeO] at hsz; omega) (by rfl)),
      parse_dump_obj (.ocons k2 w tl2) fuel rest (by intro h; cases h)
        (by simp only [jsizeO] at hsz ⊢; omega)]
    rfl
end

theorem unpack_pack (n : Nat) (h : n < 4294967296) : unpack32BE (pack32BE n) = n := by
  simp only [pack32BE, unpack32BE]
  omega

/-- Decoding the serialized bytes of any record recovers it. -/
theorem json_loads_json_dumps (v : JVal) :
    json_loads (json_dumps v) = some v := by
  have hmap : (json_dumps v).map Char.ofNat = dumpJ v := by
    simp [json_dumps, List.map_map, Function.comp_def, Char.ofNat_toNat]
  have hparse : parseJ ((dumpJ v).length + 1) (dumpJ v) = some (v, []) := by
    have h := parse_dump_val v ((dumpJ v).length + 1) []
      (le_trans (jsizeJ_le v) (by omega)) rfl
    rwa [List.append_nil] at h
  simp only [json_loads]
  rw [hmap, hparse]

/-- The framing layer returns exactly the payload the sender framed, leaving
any following bytes in the stream. -/
theorem recv_frame (payload extra : List Nat)
    (hlen : payload.length < 4294967296) (hne : payload ≠ []) :
    async_recv_message_frame (pack32BE payload.length ++ (payload ++ extra)) =
      some (payload, extra) := by
  have h4 : async_recv_exact (pack32BE payload.length ++ (payload ++ extra)) 4 =
      some (pack32BE payload.length, payload ++ extra) := by
    simp only [async_recv_exact]
    rw [if_pos (by
      simp only [pack32BE, List.length_append, List.length_cons, List.length_nil]
      omega)]
    rw [show (4 : Nat) = (pack32BE payload.length).length from rfl,
        List.take_left, List.drop_left]
  have h5 : async_recv_exact (payload ++ extra) payload.length = some (payload, extra) := by
    simp only [async_recv_exact]
    rw [if_pos (by rw [List.length_append]; omega), List.take_left, List.drop_left]
  simp only [async_recv_message_frame]
  rw [h4]
  dsimp only
  rw [unpack_pack payload.length hlen, h5]
  dsimp only
  rw [if_neg hne]

/-- C7: for every record whose serialized payload fits the 32-bit length
field (`struct.pack` raises beyond it), encoding with the wire codec
(`async_send_message`, and the sync `send_message` with the same bytes)
and then decoding the resulting framed bytes (`async_recv_message`) yields
the original record with any following stream bytes untouched; moreover
the 4-byte big-endian length prefix written by the encoder equals the byte
length of the serialized payload that the decoder reads. -/
theorem C7_roundtrip (v : JVal) (extra : List Nat)
    (hlen : (json_dumps v).length < 4294967296) :
    ∃ frame, async_send_message v = some frame ∧
      async_recv_message (frame ++ extra) = some (v, extra) ∧
      frame.take 4 = pack32BE (json_dumps v).length ∧
      unpack32BE (frame.take 4) = (frame.drop 4).length ∧
      frame.drop 4 = json_dumps v := by
  have hne : json_dumps v ≠ [] := by
    intro h
    cases hdv : dumpJ v with
    | nil => exact dumpJ_ne_nil v hdv
    | cons c t =>
      rw [json_dumps, hdv] at h
      simp at h
  refine ⟨pack32BE (json_dumps v).length ++ json_dumps v, ?_, ?_, ?_, ?_, ?_⟩
  · simp only [async_send_message]
    rw [if_pos hlen]
  · rw [List.append_assoc]
    simp only [async_recv_message]
    rw [recv_frame (json_dumps v) extra hlen hne]
    dsimp only
    rw [json_loads_json_dumps v]
  · rw [show (4 : Nat) = (pack32BE (json_dumps v).length).length from rfl, List.take_left]
  · rw [show (4 : Nat) = (pack32BE (json_dumps v).length).length from rfl,
        List.take_left, List.drop_left, unpack_pack _ hlen]
  · rw [show (4 : Nat) = (pack32BE (json_dumps v).length).length from rfl, List.drop_left]

/-- C7 witness: a non-ASCII error record (whose dump uses `\uXXXX`
escapes) round-trips through the codec with a trailing byte left in the
stream. -/
theorem C7_roundtrip_witness :
    ((json_dumps (JVal.jobj (JObj.ocons "status" (JVal.jstr "error")
      (JObj.ocons "message" (JVal.jstr "Acción desconocida: X") JObj.onil)))).length
        < 4294967296) ∧
    ∃ frame,
      async_send_message (JVal.jobj (JObj.ocons "status" (JVal.jstr "error")
        (JObj.ocons "message" (JVal.jstr "Acción desconocida: X") JObj.onil)))
          = some frame ∧
      async_recv_message (frame ++ [0]) =
        some (JVal.jobj (JObj.ocons "status" (JVal.jstr "error")
          (JObj.ocons "message" (JVal.jstr "Acción desconocida: X") JObj.onil)), [0]) :=
  ⟨by decide, by
    obtain ⟨frame, h1, h2, _⟩ :=
      C7_roundtrip (JVal.jobj (JObj.ocons "status" (JVal.jstr "error")
        (JObj.ocons "message" (JVal.jstr "Acción desconocida: X") JObj.onil))) [0]
        (by decide)
    exact ⟨frame, h1, h2⟩⟩

end CLISend
